import Mathlib

/-!
# dxvk: shader analysis pass and compute-pipeline instance cache

A shallow embedding of

* `src/dxbc/dxbc_analysis.cpp` (`DxbcAnalyzer`): the constructor,
  `processInstruction`, `handleTextureSamplerPair`, `getClipCullInfo`;
* `src/dxvk/dxvk_compute.cpp` (`DxvkComputePipeline`): `getPipelineHandle`,
  `compilePipeline`, `createInstance`, `findInstance`, `createPipeline`,
  `writePipelineStateToCache`.

C++ arrays are lists; an access outside the array (undefined behaviour in the
source) makes the embedded function return `none`.  Mutable objects are passed
explicitly as values.
-/

namespace dxvk

/-! ## Machine integers and array access -/

/-- Conversion of a 32-bit pattern to `int32_t` (two's complement). -/
def toInt32 (n : Nat) : Int :=
  if n % 2 ^ 32 < 2 ^ 31 then ((n % 2 ^ 32 : Nat) : Int) else ((n % 2 ^ 32 : Nat) : Int) - 2 ^ 32

/-- Conversion to `uint32_t`. -/
def toUInt32 (n : Nat) : Nat := n % 2 ^ 32

/-- Whether the signed index `i` designates an element of `xs`. -/
def inBounds {α : Type} (xs : List α) (i : Int) : Bool :=
  decide (0 ≤ i) && decide (i < (xs.length : Int))

/-- Read of `xs[i]`; `none` outside the array. -/
def arrGet {α : Type} (xs : List α) (i : Int) : Option α :=
  if inBounds xs i then xs[i.toNat]? else none

/-- The array `xs` with `xs[i]` replaced (only meaningful inside the array). -/
def arrPut {α : Type} (xs : List α) (i : Int) (v : α) : List α :=
  if inBounds xs i then xs.set i.toNat v else xs

/-- Write `xs[i] = v`; `none` outside the array. -/
def arrSet {α : Type} (xs : List α) (i : Int) (v : α) : Option (List α) :=
  if inBounds xs i then some (arrPut xs i v) else none

/-! ## Data model of the analyzer -/

/-- The instruction classes `processInstruction` dispatches on; every other class
of the decoder is `Other`. -/
inductive DxbcInstClass where
  | Atomic
  | TextureSample
  | TextureQueryLod
  | TextureGather
  | VectorDeriv
  | ControlFlow
  | TypedUavLoad
  | Other (tag : Nat)
deriving DecidableEq, Repr

/-- The opcodes `processInstruction` tests for; every other opcode is `Other`. -/
inductive DxbcOpcode where
  | Gather4Po
  | Gather4PoC
  | Discard
  | Other (code : Nat)
deriving DecidableEq, Repr

/-- Resource kind of an operand. -/
inductive DxbcOperandType where
  | UnorderedAccessView
  | Other (tag : Nat)
deriving DecidableEq, Repr

/-- An operand: its resource kind `type` and the 32-bit pattern of
`idx[0].offset`. -/
structure DxbcRegister where
  type : DxbcOperandType
  idx0offset : Nat
deriving DecidableEq, Repr

/-- A decoded instruction. -/
structure DxbcShaderInstruction where
  op : DxbcOpcode
  opClass : DxbcInstClass
  dstCount : Nat
  dst : List DxbcRegister
  src : List DxbcRegister
deriving DecidableEq, Repr

/-- System-value semantic of a signature element. -/
inductive DxbcSystemValue where
  | None
  | Position
  | ClipDistance
  | CullDistance
  | Other (tag : Nat)
deriving DecidableEq, Repr

/-- Modelled from the spec: `DxbcRegMask`, declared outside the sources, is a
component write-mask of up to 4 bits. -/
structure DxbcRegMask where
  m_mask : Fin 16
deriving DecidableEq, Repr

/-- Modelled from the spec: `DxbcRegMask::popCount`, declared outside the
sources, is the number of components in the write-mask. -/
def DxbcRegMask.popCount (m : DxbcRegMask) : Nat :=
  m.m_mask.val % 2 + m.m_mask.val / 2 % 2 + m.m_mask.val / 4 % 2 + m.m_mask.val / 8 % 2

/-- A signature element (the fields `getClipCullInfo` reads). -/
structure DxbcSgnEntry where
  systemValue : DxbcSystemValue
  componentMask : DxbcRegMask
deriving DecidableEq, Repr

/-- A signature table `Rc<DxbcIsgn>`: `none` is the null reference. -/
abbrev DxbcIsgnRef := Option (List DxbcSgnEntry)

/-- Modelled from the spec: `DxbcClipCullInfo`, declared outside the sources,
holds the two plane counts, both zero in a fresh value. -/
structure DxbcClipCullInfo where
  numClipPlanes : Nat := 0
  numCullPlanes : Nat := 0
deriving DecidableEq, Repr

/-- Per-UAV access flags. -/
structure DxbcUavInfo where
  accessTypedLoad : Bool := false
  accessAtomicOp : Bool := false
deriving DecidableEq, Repr

/-- The Analysis Record. -/
structure DxbcAnalysisInfo where
  uavInfos : List DxbcUavInfo
  textureSamplerIds : List Int
  samplerTextureIds : List Int
  clipCullIn : DxbcClipCullInfo
  clipCullOut : DxbcClipCullInfo
  usesDerivatives : Bool
  usesKill : Bool
deriving DecidableEq, Repr

/-! ## `DxbcAnalyzer` -/

namespace DxbcAnalyzer

/-- One iteration of the loop of `getClipCullInfo`. -/
def clipCullStep (result : DxbcClipCullInfo) (e : DxbcSgnEntry) : DxbcClipCullInfo :=
  let componentCount := e.componentMask.popCount
  let result :=
    if e.systemValue = DxbcSystemValue.ClipDistance then
      { result with numClipPlanes := result.numClipPlanes + componentCount }
    else result
  if e.systemValue = DxbcSystemValue.CullDistance then
    { result with numCullPlanes := result.numCullPlanes + componentCount }
  else result

/-- The function `DxbcAnalyzer::getClipCullInfo`. -/
def getClipCullInfo (sgn : DxbcIsgnRef) : DxbcClipCullInfo :=
  match sgn with
  | none => {}
  | some entries => entries.foldl clipCullStep {}

/-- The constructor `DxbcAnalyzer::DxbcAnalyzer`, as a function of the record
it is handed. -/
def construct (isgn osgn _psgn : DxbcIsgnRef) (analysis : DxbcAnalysisInfo) :
    DxbcAnalysisInfo :=
  let analysis := { analysis with clipCullIn := getClipCullInfo isgn }
  let analysis := { analysis with clipCullOut := getClipCullInfo osgn }
  let analysis := { analysis with
    textureSamplerIds := analysis.textureSamplerIds.map (fun _ => (-1 : Int)) }
  { analysis with
    samplerTextureIds := analysis.samplerTextureIds.map (fun _ => (-1 : Int)) }

/-- The function `DxbcAnalyzer::handleTextureSamplerPair`.  The two references
`textureSamplerId` and `samplerTextureId` are read afresh at each use. -/
def handleTextureSamplerPair (a : DxbcAnalysisInfo) (texture sampler : DxbcRegister) :
    Option DxbcAnalysisInfo :=
  let textureId : Int := toInt32 texture.idx0offset
  let samplerId : Int := toInt32 sampler.idx0offset
  match arrGet a.textureSamplerIds textureId, arrGet a.samplerTextureIds samplerId with
  | some textureSamplerId, some samplerTextureId =>
    if textureSamplerId = -1 ∧ samplerTextureId = -1 then
      some { a with
        textureSamplerIds := arrPut a.textureSamplerIds textureId samplerId
        samplerTextureIds := arrPut a.samplerTextureIds samplerId textureId }
    else if textureSamplerId ≠ samplerId ∨ samplerTextureId ≠ textureId then
      -- if (textureSamplerId >= 0) samplerTextureIds[textureSamplerId] = -2
      let a1? : Option DxbcAnalysisInfo :=
        if textureSamplerId ≥ 0 then
          (arrSet a.samplerTextureIds textureSamplerId (-2)).map
            (fun s => { a with samplerTextureIds := s })
        else some a
      a1?.bind fun a1 =>
      -- if (samplerTextureId >= 0) textureSamplerIds[samplerTextureId] = -2
      (arrGet a1.samplerTextureIds samplerId).bind fun samplerTextureId1 =>
      let a2? : Option DxbcAnalysisInfo :=
        if samplerTextureId1 ≥ 0 then
          (arrSet a1.textureSamplerIds samplerTextureId1 (-2)).map
            (fun t => { a1 with textureSamplerIds := t })
        else some a1
      a2?.bind fun a2 =>
      some { a2 with
        textureSamplerIds := arrPut a2.textureSamplerIds textureId (-2)
        samplerTextureIds := arrPut a2.samplerTextureIds samplerId (-2) }
    else some a
  | _, _ => none

/-- The block of `processInstruction` under `case DxbcInstClass::TextureGather`,
which the sample and query-lod cases fall through to. -/
def gatherCase (a : DxbcAnalysisInfo) (ins : DxbcShaderInstruction) :
    Option DxbcAnalysisInfo :=
  let isExtendedGather : Nat :=
    if ins.op = DxbcOpcode.Gather4Po ∨ ins.op = DxbcOpcode.Gather4PoC then 1 else 0
  match ins.src[1 + isExtendedGather]?, ins.src[2 + isExtendedGather]? with
  | some textureReg, some samplerReg => handleTextureSamplerPair a textureReg samplerReg
  | _, _ => none

/-- The function `DxbcAnalyzer::processInstruction`. -/
def processInstruction (a : DxbcAnalysisInfo) (ins : DxbcShaderInstruction) :
    Option DxbcAnalysisInfo :=
  match ins.opClass with
  | DxbcInstClass.Atomic =>
    let operandId : Nat := toUInt32 (ins.dstCount + (2 ^ 32 - 1))
    match ins.dst[operandId]? with
    | none => none
    | some d =>
      if d.type = DxbcOperandType.UnorderedAccessView then
        let registerId : Nat := toUInt32 d.idx0offset
        match a.uavInfos[registerId]? with
        | none => none
        | some u =>
          some { a with uavInfos := a.uavInfos.set registerId { u with accessAtomicOp := true } }
      else some a
  | DxbcInstClass.TextureSample => gatherCase { a with usesDerivatives := true } ins
  | DxbcInstClass.TextureQueryLod => gatherCase { a with usesDerivatives := true } ins
  | DxbcInstClass.TextureGather => gatherCase a ins
  | DxbcInstClass.VectorDeriv => some { a with usesDerivatives := true }
  | DxbcInstClass.ControlFlow =>
    if ins.op = DxbcOpcode.Discard then some { a with usesKill := true } else some a
  | DxbcInstClass.TypedUavLoad =>
    match ins.src[1]? with
    | none => none
    | some s =>
      let registerId : Nat := toUInt32 s.idx0offset
      match a.uavInfos[registerId]? with
      | none => none
      | some u =>
        some { a with uavInfos := a.uavInfos.set registerId { u with accessTypedLoad := true } }
  | DxbcInstClass.Other _ => some a

/-- Processing an instruction stream in program order. -/
def run (a : DxbcAnalysisInfo) : List DxbcShaderInstruction → Option DxbcAnalysisInfo
  | [] => some a
  | ins :: rest => (processInstruction a ins).bind fun a1 => run a1 rest

/-- The pairing step in the words of the specification, on the pre-step values
`a = textureSamplerIds[T]` and `b = samplerTextureIds[S]`. -/
def specPairing (r : DxbcAnalysisInfo) (T S : Int) : DxbcAnalysisInfo :=
  match arrGet r.textureSamplerIds T, arrGet r.samplerTextureIds S with
  | some a, some b =>
    if a = -1 ∧ b = -1 then
      { r with
        textureSamplerIds := arrPut r.textureSamplerIds T S
        samplerTextureIds := arrPut r.samplerTextureIds S T }
    else if a ≠ S ∨ b ≠ T then
      { r with
        textureSamplerIds :=
          arrPut (if b ≥ 0 then arrPut r.textureSamplerIds b (-2) else r.textureSamplerIds) T (-2)
        samplerTextureIds :=
          arrPut (if a ≥ 0 then arrPut r.samplerTextureIds a (-2) else r.samplerTextureIds) S (-2) }
    else r
  | _, _ => r

/-- The texture and sampler slots (`textureId`, `samplerId`) a texture-class
instruction hands to the pairing step; `none` for every other instruction. -/
def observedPair (ins : DxbcShaderInstruction) : Option (Int × Int) :=
  if ins.opClass = DxbcInstClass.TextureSample ∨ ins.opClass = DxbcInstClass.TextureQueryLod
      ∨ ins.opClass = DxbcInstClass.TextureGather then
    let k : Nat := if ins.op = DxbcOpcode.Gather4Po ∨ ins.op = DxbcOpcode.Gather4PoC then 1 else 0
    match ins.src[1 + k]?, ins.src[2 + k]? with
    | some t, some s => some (toInt32 t.idx0offset, toInt32 s.idx0offset)
    | _, _ => none
  else none

/-- Whether the class of the instruction sets `usesDerivatives` before the
pairing step. -/
def setsDerivatives (ins : DxbcShaderInstruction) : Bool :=
  decide (ins.opClass = DxbcInstClass.TextureSample ∨
    ins.opClass = DxbcInstClass.TextureQueryLod)

/-- A record whose arrays have not been through the constructor yet. -/
def exampleRecord : DxbcAnalysisInfo :=
  { uavInfos := [{}, {}]
    textureSamplerIds := [0, 0, 0]
    samplerTextureIds := [0, 0]
    clipCullIn := {}
    clipCullOut := {}
    usesDerivatives := false
    usesKill := false }

/-- An instruction of class `cls` reading texture slot `t` with sampler slot `s`. -/
def exampleTexIns (cls : DxbcInstClass) (t s : Nat) : DxbcShaderInstruction :=
  { op := DxbcOpcode.Other 0
    opClass := cls
    dstCount := 1
    dst := [⟨DxbcOperandType.Other 0, 0⟩]
    src := [⟨DxbcOperandType.Other 0, 0⟩, ⟨DxbcOperandType.Other 1, t⟩,
            ⟨DxbcOperandType.Other 2, s⟩] }

/-- The record after the constructor and one sample of texture 0 with sampler 0. -/
def examplePaired : DxbcAnalysisInfo :=
  { exampleRecord with
    textureSamplerIds := [0, -1, -1]
    samplerTextureIds := [0, -1]
    usesDerivatives := true }

/-- The record after the constructor and gathers of the pairs (0, 0) and (1, 0). -/
def examplePoisoned : DxbcAnalysisInfo :=
  { exampleRecord with
    textureSamplerIds := [-2, -2, -1]
    samplerTextureIds := [-2, -1] }

/-- A record with every flag of UAV slot 0 and both shader-wide flags set. -/
def exampleFlagged : DxbcAnalysisInfo :=
  { exampleRecord with
    uavInfos := [⟨true, true⟩, {}]
    usesDerivatives := true
    usesKill := true }

/-- A typed UAV load from slot `slot`. -/
def exampleTypedLoad (slot : Nat) : DxbcShaderInstruction :=
  { op := DxbcOpcode.Other 0
    opClass := DxbcInstClass.TypedUavLoad
    dstCount := 1
    dst := [⟨DxbcOperandType.Other 0, 0⟩]
    src := [⟨DxbcOperandType.Other 0, 0⟩, ⟨DxbcOperandType.UnorderedAccessView, slot⟩] }

/-- An atomic operation whose last destination is UAV slot `slot`. -/
def exampleAtomic (slot : Nat) : DxbcShaderInstruction :=
  { op := DxbcOpcode.Other 1
    opClass := DxbcInstClass.Atomic
    dstCount := 1
    dst := [⟨DxbcOperandType.UnorderedAccessView, slot⟩]
    src := [] }

/-- A discard. -/
def exampleDiscard : DxbcShaderInstruction :=
  { op := DxbcOpcode.Discard
    opClass := DxbcInstClass.ControlFlow
    dstCount := 0
    dst := []
    src := [] }

/-- No flag that is set in `a` is cleared in `a1`: `usesDerivatives`,
`usesKill`, and the two access flags of every UAV slot. -/
def FlagsKept (a a1 : DxbcAnalysisInfo) : Prop :=
  (a.usesDerivatives = true → a1.usesDerivatives = true) ∧
  (a.usesKill = true → a1.usesKill = true) ∧
  (∀ (i : Nat) (u : DxbcUavInfo), a.uavInfos[i]? = some u →
    ∃ u1 : DxbcUavInfo, a1.uavInfos[i]? = some u1 ∧
      (u.accessAtomicOp = true → u1.accessAtomicOp = true) ∧
      (u.accessTypedLoad = true → u1.accessTypedLoad = true))

/-- The pairs observed by the texture-class instructions of a stream, in
program order. -/
def observedPairs (prog : List DxbcShaderInstruction) : List (Int × Int) :=
  prog.filterMap observedPair

/-- Among the observed pairs `M`, the pair `(X, Y)` occurs and every pair with
first component `X` or second component `Y` is `(X, Y)` itself. -/
def OnlyPair (M : Int → Int → Prop) (X Y : Int) : Prop :=
  M X Y ∧ ∀ x y : Int, M x y → (x = X ∨ y = Y) → (x = X ∧ y = Y)

/-- The array `xs` describes the observed pairs `M` from the side of their first
components: an entry is `-1` when its slot occurs in no pair, the partner `Y`
when `(slot, Y)` is the only pair touching the slot or `Y`, and `-2` otherwise. -/
def SlotsDescribe (M : Int → Int → Prop) (xs : List Int) : Prop :=
  ∀ X v : Int, arrGet xs X = some v →
    -2 ≤ v ∧ (v = -1 ↔ ∀ y : Int, ¬ M X y) ∧
    (∀ Y : Int, 0 ≤ Y → (v = Y ↔ OnlyPair M X Y))

/-- What the pairing step of the specification does to the array indexed by
`X`, given the pre-step entries `a` of slot `X` and `b` of the partner slot `Y`
in the other array. -/
def pairingUpdate (xs : List Int) (X Y a b : Int) : List Int :=
  if a = -1 ∧ b = -1 then arrPut xs X Y
  else if a ≠ Y ∨ b ≠ X then arrPut (if b ≥ 0 then arrPut xs b (-2) else xs) X (-2)
  else xs

/-- The non-negative entries of the two pairing arrays mirror each other. -/
def PairingInv (tsi sti : List Int) : Prop :=
  (∀ t v : Int, arrGet tsi t = some v → 0 ≤ v → arrGet sti v = some t) ∧
  (∀ s v : Int, arrGet sti s = some v → 0 ≤ v → arrGet tsi v = some s)

end DxbcAnalyzer

/-! ## Data model of the compute pipeline -/

/-- A pipeline handle; `VK_NULL_HANDLE` is zero. -/
abbrev VkPipeline := Nat

/-- The null handle. -/
def VK_NULL_HANDLE : VkPipeline := 0

/-- A Vulkan result code; `VK_SUCCESS` is zero. -/
abbrev VkResult := Int

/-- The success code. -/
def VK_SUCCESS : VkResult := 0

/-- The stage flag `VK_PIPELINE_SHADER_STAGE_CREATE_REQUIRE_FULL_SUBGROUPS_BIT_EXT`. -/
def VK_PIPELINE_SHADER_STAGE_CREATE_REQUIRE_FULL_SUBGROUPS_BIT_EXT : Nat := 2

/-- The render-state vector `DxvkComputePipelineStateInfo`: the binding mask
(bit `i` is `bsBindingMask.test(i)`) and the block `sc.specConstants`. -/
structure DxvkComputePipelineStateInfo where
  bsBindingMask : Nat
  specConstants : List Nat
deriving DecidableEq, Repr

/-- A pipeline instance: the state vector it was built from and its handle. -/
structure DxvkComputePipelineInstance where
  m_stateVector : DxvkComputePipelineStateInfo
  m_pipeline : VkPipeline
deriving DecidableEq, Repr

/-- The accessor `DxvkComputePipelineInstance::pipeline`. -/
def DxvkComputePipelineInstance.pipeline (i : DxvkComputePipelineInstance) : VkPipeline :=
  i.m_pipeline

/-- Workgroup size. -/
structure VkExtent3D where
  width : Nat
  height : Nat
  depth : Nat
deriving DecidableEq, Repr

/-- The stage descriptor: its flags, what is chained at `pNext` (`none` when
nothing is, otherwise the `requiredSubgroupSize` of the chained request), and
the specialization data as (constant id, value) entries. -/
structure VkPipelineShaderStageCreateInfo where
  flags : Nat
  pNext : Option Nat
  pSpecializationInfo : List (Nat × Nat)
deriving DecidableEq, Repr

/-- The pipeline-creation descriptor handed to the driver. -/
structure VkComputePipelineCreateInfo where
  flags : Nat
  stage : VkPipelineShaderStageCreateInfo
  basePipelineHandle : VkPipeline
  basePipelineIndex : Int
deriving DecidableEq, Repr

/-- The key `DxvkStateCacheKey` (its compute-shader component). -/
structure DxvkStateCacheKey where
  cs : Nat := 0
deriving DecidableEq, Repr

/-- What a `DxvkComputePipeline` reads and never writes: device features and
limits, the shader `m_shaders.cs` (never null: the constructor dereferences
it), the layout, and the collaborators declared outside the sources.
`stageFlags` are the flags of `csm.stageInfo`, `affecting` projects a state
vector to the fields that affect the compiled pipeline, and
`vkCreateComputePipelines` is the driver entry point as a function of the
driver's state `δ`: the result code, the handle written to `pipeline`, and the
driver's next state. -/
structure DxvkComputePipelineEnv (κ δ : Type) where
  subgroupSizeControl : Bool
  computeFullSubgroups : Bool
  minSubgroupSize : Nat
  maxSubgroupSize : Nat
  maxComputeWorkgroupSubgroups : Nat
  shaderKey : Nat
  workgroupSize : VkExtent3D
  shaderMinSubgroupSize : Nat
  stageFlags : Nat
  bindingCount : Nat
  MaxNumSpecConstants : Nat
  getSpecId : Nat → Nat
  affecting : DxvkComputePipelineStateInfo → κ
  vkCreateComputePipelines : δ → VkComputePipelineCreateInfo → VkResult × VkPipeline × δ

/-- What the calls on a `DxvkComputePipeline` write: its instance collection
`m_pipelines`, the manager's counter `m_numComputePipelines`, the persisted
cache `m_stateCache` (`none` is the null pointer, otherwise the
`addComputePipeline` calls it has received), the driver's state, and the
descriptors handed to `vkCreateComputePipelines` so far (`vkCalls`). -/
structure DxvkComputePipelineWorld (δ : Type) where
  m_pipelines : List DxvkComputePipelineInstance
  m_numComputePipelines : Nat
  m_stateCache : Option (List (DxvkStateCacheKey × DxvkComputePipelineStateInfo))
  driver : δ
  vkCalls : List VkComputePipelineCreateInfo
deriving DecidableEq

/-! ## `DxvkComputePipeline` -/

namespace DxvkComputePipeline

variable {κ δ : Type} [DecidableEq κ]

/-- Modelled from the spec: compatibility of two state vectors is equality over
the fields that affect the compiled pipeline. -/
def compatible (env : DxvkComputePipelineEnv κ δ)
    (a b : DxvkComputePipelineStateInfo) : Bool :=
  decide (env.affecting a = env.affecting b)

/-- Modelled from the spec: `DxvkComputePipelineInstance::isCompatible` is
declared outside the sources; an instance is compatible with a state vector
when its own state vector is. -/
def isCompatible (env : DxvkComputePipelineEnv κ δ)
    (inst : DxvkComputePipelineInstance) (state : DxvkComputePipelineStateInfo) : Bool :=
  compatible env inst.m_stateVector state

/-- Modelled from the spec: `DxvkSpecConstants::set(specId, value, defaultValue)`
is declared outside the sources; the specialization vector holds one
(id, value) entry per call, in call order, whatever the default the shader
assumes for that id. -/
def specSet (specData : List (Nat × Nat)) (specId value _defaultValue : Nat) :
    List (Nat × Nat) :=
  specData ++ [(specId, value)]

/-- The specialization data built at the head of `createPipeline`. -/
def buildSpecData (env : DxvkComputePipelineEnv κ δ)
    (state : DxvkComputePipelineStateInfo) : List (Nat × Nat) :=
  let specData : List (Nat × Nat) := []
  let specData := (List.range env.bindingCount).foldl
    (fun sd i => specSet sd i (if state.bsBindingMask.testBit i then 1 else 0) 1) specData
  (List.range env.MaxNumSpecConstants).foldl
    (fun sd i => specSet sd (env.getSpecId i) (state.specConstants.getD i 0) 0) specData

/-- The descriptor `info` that `createPipeline` hands to the driver. -/
def pipelineCreateInfo (env : DxvkComputePipelineEnv κ δ)
    (state : DxvkComputePipelineStateInfo) : VkComputePipelineCreateInfo :=
  let specInfo := buildSpecData env state
  let workgroupSize := env.workgroupSize
  let subgroupSize := env.shaderMinSubgroupSize
  let stage : VkPipelineShaderStageCreateInfo :=
    { flags := env.stageFlags, pNext := none, pSpecializationInfo := specInfo }
  let stage :=
    if env.subgroupSizeControl = true
        ∧ subgroupSize > env.minSubgroupSize
        ∧ subgroupSize ≤ env.maxSubgroupSize
        ∧ (workgroupSize.width * workgroupSize.height % 2 ^ 32 * workgroupSize.depth) % 2 ^ 32 ≤
            (subgroupSize * env.maxComputeWorkgroupSubgroups) % 2 ^ 32 then
      { stage with pNext := some subgroupSize }
    else stage
  let stage :=
    if env.computeFullSubgroups = true ∧ subgroupSize ≠ 0 then
      { stage with flags :=
          stage.flags ||| VK_PIPELINE_SHADER_STAGE_CREATE_REQUIRE_FULL_SUBGROUPS_BIT_EXT }
    else stage
  { flags := 0, stage := stage, basePipelineHandle := VK_NULL_HANDLE, basePipelineIndex := -1 }

/-- The function `DxvkComputePipeline::createPipeline`: the handle it returns
and the world after the driver call. -/
def createPipeline (env : DxvkComputePipelineEnv κ δ) (w : DxvkComputePipelineWorld δ)
    (state : DxvkComputePipelineStateInfo) : VkPipeline × DxvkComputePipelineWorld δ :=
  let info := pipelineCreateInfo env state
  let res := env.vkCreateComputePipelines w.driver info
  let w1 := { w with driver := res.2.2, vkCalls := w.vkCalls ++ [info] }
  if res.1 ≠ VK_SUCCESS then (VK_NULL_HANDLE, w1) else (res.2.1, w1)

/-- The function `DxvkComputePipeline::createInstance`: the instance it
returns a pointer to, and the world after it. -/
def createInstance (env : DxvkComputePipelineEnv κ δ) (w : DxvkComputePipelineWorld δ)
    (state : DxvkComputePipelineStateInfo) :
    Option DxvkComputePipelineInstance × DxvkComputePipelineWorld δ :=
  let r := createPipeline env w state
  let newPipelineHandle := r.1
  let w1 := { r.2 with m_numComputePipelines := r.2.m_numComputePipelines + 1 }
  let inst : DxvkComputePipelineInstance := ⟨state, newPipelineHandle⟩
  (some inst, { w1 with m_pipelines := w1.m_pipelines ++ [inst] })

/-- The function `DxvkComputePipeline::findInstance`. -/
def findInstance (env : DxvkComputePipelineEnv κ δ) (w : DxvkComputePipelineWorld δ)
    (state : DxvkComputePipelineStateInfo) : Option DxvkComputePipelineInstance :=
  w.m_pipelines.find? (fun inst => isCompatible env inst state)

/-- The function `DxvkComputePipeline::writePipelineStateToCache`. -/
def writePipelineStateToCache (env : DxvkComputePipelineEnv κ δ)
    (w : DxvkComputePipelineWorld δ) (state : DxvkComputePipelineStateInfo) :
    DxvkComputePipelineWorld δ :=
  match w.m_stateCache with
  | none => w
  | some cache =>
    let key : DxvkStateCacheKey := { cs := env.shaderKey }
    { w with m_stateCache := some (cache ++ [(key, state)]) }

/-- The function `DxvkComputePipeline::getPipelineHandle`: the handle it
returns and the world after it. -/
def getPipelineHandle (env : DxvkComputePipelineEnv κ δ) (w : DxvkComputePipelineWorld δ)
    (state : DxvkComputePipelineStateInfo) : VkPipeline × DxvkComputePipelineWorld δ :=
  match findInstance env w state with
  | some inst => (inst.pipeline, w)
  | none =>
    let r := createInstance env w state
    match r.1 with
    | none => (VK_NULL_HANDLE, r.2)
    | some inst => (inst.pipeline, writePipelineStateToCache env r.2 state)

/-- The function `DxvkComputePipeline::compilePipeline`. -/
def compilePipeline (env : DxvkComputePipelineEnv κ δ) (w : DxvkComputePipelineWorld δ)
    (state : DxvkComputePipelineStateInfo) : DxvkComputePipelineWorld δ :=
  match findInstance env w state with
  | some _ => w
  | none => (createInstance env w state).2

/-- A call on the pipeline object. -/
inductive Call where
  | getPipelineHandle (state : DxvkComputePipelineStateInfo)
  | compilePipeline (state : DxvkComputePipelineStateInfo)
deriving DecidableEq, Repr

/-- The state vector of a call. -/
def Call.state : Call → DxvkComputePipelineStateInfo
  | Call.getPipelineHandle s => s
  | Call.compilePipeline s => s

/-- The world after one call. -/
def step (env : DxvkComputePipelineEnv κ δ) (w : DxvkComputePipelineWorld δ)
    (c : Call) : DxvkComputePipelineWorld δ :=
  match c with
  | Call.getPipelineHandle s => (getPipelineHandle env w s).2
  | Call.compilePipeline s => compilePipeline env w s

/-- The world after a sequence of calls. -/
def runCalls (env : DxvkComputePipelineEnv κ δ) (w : DxvkComputePipelineWorld δ)
    (calls : List Call) : DxvkComputePipelineWorld δ :=
  calls.foldl (step env) w

/-- The pipeline-affecting projections of the recorded instances, in insertion
order. -/
def keys (env : DxvkComputePipelineEnv κ δ) (w : DxvkComputePipelineWorld δ) : List κ :=
  w.m_pipelines.map (fun inst => env.affecting inst.m_stateVector)

/-- Appending a key that is not yet present. -/
def addKey (ks : List κ) (k : κ) : List κ :=
  if k ∈ ks then ks else ks ++ [k]

/-- A device whose driver fails on every odd-numbered call and otherwise
returns the handle `100 + n` for call number `n`; only the two low bits of the
binding mask affect the pipeline. -/
def exampleEnv : DxvkComputePipelineEnv Nat Nat :=
  { subgroupSizeControl := true
    computeFullSubgroups := true
    minSubgroupSize := 4
    maxSubgroupSize := 64
    maxComputeWorkgroupSubgroups := 16
    shaderKey := 7
    workgroupSize := ⟨8, 8, 1⟩
    shaderMinSubgroupSize := 32
    stageFlags := 0
    bindingCount := 2
    MaxNumSpecConstants := 2
    getSpecId := fun i => 10 + i
    affecting := fun s => s.bsBindingMask % 4
    vkCreateComputePipelines := fun d _ =>
      if d % 2 = 0 then (VK_SUCCESS, 100 + d, d + 1) else (-1, 55, d + 1) }

/-- A freshly constructed pipeline object with a state cache attached. -/
def exampleWorld : DxvkComputePipelineWorld Nat :=
  { m_pipelines := [], m_numComputePipelines := 0, m_stateCache := some [],
    driver := 0, vkCalls := [] }

/-- A fresh pipeline object whose next compile fails. -/
def exampleFailingWorld : DxvkComputePipelineWorld Nat :=
  { m_pipelines := [], m_numComputePipelines := 0, m_stateCache := some [],
    driver := 1, vkCalls := [] }

/-- A state vector with binding mask `m`. -/
def exampleState (m : Nat) : DxvkComputePipelineStateInfo :=
  { bsBindingMask := m, specConstants := [0, 0] }

/-- The position in `m_pipelines` of the instance that the local `instance` of
`getPipelineHandle` points to when the call returns: that of the first
compatible instance, or the end of the collection, where `createInstance`
emplaces. -/
def resolvedIndex (env : DxvkComputePipelineEnv κ δ) (w : DxvkComputePipelineWorld δ)
    (state : DxvkComputePipelineStateInfo) : Nat :=
  w.m_pipelines.findIdx (fun inst => isCompatible env inst state)

/-- The example device with the shader's subgroup size equal to the device's
minimum subgroup size. -/
def exampleEnvAtMin : DxvkComputePipelineEnv Nat Nat :=
  { exampleEnv with minSubgroupSize := 32 }

/-- The example device without subgroup size control. -/
def exampleEnvNoControl : DxvkComputePipelineEnv Nat Nat :=
  { exampleEnv with subgroupSizeControl := false }

/-- A pipeline object that already holds an instance for binding mask 1. -/
def exampleWarmWorld : DxvkComputePipelineWorld Nat :=
  { exampleWorld with m_pipelines := [⟨exampleState 1, 100⟩] }

end DxvkComputePipeline

/-! ## Array lemmas -/

theorem inBounds_iff {α : Type} (xs : List α) (i : Int) :
    inBounds xs i = true ↔ 0 ≤ i ∧ i < (xs.length : Int) := by
  simp [inBounds]

theorem arrPut_length {α : Type} (xs : List α) (i : Int) (v : α) :
    (arrPut xs i v).length = xs.length := by
  unfold arrPut; split <;> simp

theorem inBounds_arrPut {α : Type} (xs : List α) (i j : Int) (v : α) :
    inBounds (arrPut xs i v) j = inBounds xs j := by
  simp [inBounds, arrPut_length]

theorem arrGet_isSome {α : Type} (xs : List α) (i : Int) (h : inBounds xs i = true) :
    ∃ v, arrGet xs i = some v := by
  have hb := (inBounds_iff xs i).1 h
  have hlt : i.toNat < xs.length := by omega
  exact ⟨xs[i.toNat], by simp [arrGet, h, List.getElem?_eq_getElem hlt]⟩

theorem inBounds_of_arrGet {α : Type} {xs : List α} {i : Int} {v : α}
    (h : arrGet xs i = some v) : inBounds xs i = true := by
  unfold arrGet at h
  by_cases hb : inBounds xs i = true
  · exact hb
  · simp [hb] at h

theorem arrGet_arrPut {α : Type} (xs : List α) (i j : Int) (v : α) :
    arrGet (arrPut xs i v) j =
      if inBounds xs i = true ∧ j = i then some v else arrGet xs j := by
  by_cases hi : inBounds xs i = true
  · have hib := (inBounds_iff xs i).1 hi
    by_cases hji : j = i
    · subst hji
      have hlt : j.toNat < xs.length := by omega
      have hi2 : inBounds (arrPut xs j v) j = true := by rw [inBounds_arrPut]; exact hi
      simp only [arrGet, hi2, if_true, hi, and_self]
      simp [arrPut, hi, List.getElem?_set, hlt]
    · simp only [hji, and_false, if_false]
      unfold arrGet
      rw [inBounds_arrPut]
      by_cases hj : inBounds xs j = true
      · have hjb := (inBounds_iff xs j).1 hj
        have hne : i.toNat ≠ j.toNat := by omega
        simp [hj, arrPut, hi, List.getElem?_set, hne]
      · simp [hj]
  · simp [arrPut, hi]

theorem arrSet_of_inBounds {α : Type} (xs : List α) (i : Int) (v : α)
    (h : inBounds xs i = true) : arrSet xs i v = some (arrPut xs i v) := by
  simp [arrSet, h]

/-! ## The pairing step on mirrored arrays -/

namespace DxbcAnalyzer

theorem handle_eq_specPairing (r : DxbcAnalysisInfo) (texture sampler : DxbcRegister)
    (hinv : PairingInv r.textureSamplerIds r.samplerTextureIds)
    (hT : inBounds r.textureSamplerIds (toInt32 texture.idx0offset) = true)
    (hS : inBounds r.samplerTextureIds (toInt32 sampler.idx0offset) = true) :
    handleTextureSamplerPair r texture sampler =
      some (specPairing r (toInt32 texture.idx0offset) (toInt32 sampler.idx0offset)) := by
  unfold handleTextureSamplerPair specPairing
  generalize toInt32 texture.idx0offset = T at *
  generalize toInt32 sampler.idx0offset = S at *
  obtain ⟨a, ha⟩ := arrGet_isSome _ _ hT
  obtain ⟨b, hb⟩ := arrGet_isSome _ _ hS
  simp only [ha, hb]
  by_cases h1 : a = -1 ∧ b = -1
  · simp only [h1, and_self, if_true]
  · simp only [h1, if_false]
    by_cases h2 : a ≠ S ∨ b ≠ T
    · simp only [h2, if_true]
      -- the write through `textureSamplerId` leaves `samplerTextureIds[S]` alone
      have hSa : 0 ≤ a → S ≠ a := by
        intro ha0 hSa
        have := hinv.1 T a ha ha0
        rw [← hSa, hb] at this
        rcases h2 with h | h
        · exact h hSa.symm
        · exact h (Option.some.inj this)
      by_cases ha0 : a ≥ 0
      · have hain : inBounds r.samplerTextureIds a = true :=
          inBounds_of_arrGet (hinv.1 T a ha ha0)
        have hre : arrGet (arrPut r.samplerTextureIds a (-2)) S = some b := by
          rw [arrGet_arrPut]; simp [hSa ha0, hb]
        simp only [ha0, if_true, arrSet_of_inBounds _ _ _ hain, Option.map_some',
          Option.some_bind, hre]
        by_cases hb0 : b ≥ 0
        · have hbin : inBounds r.textureSamplerIds b = true :=
            inBounds_of_arrGet (hinv.2 S b hb hb0)
          simp [hb0, arrSet_of_inBounds _ _ _ hbin]
        · simp [hb0]
      · simp only [ha0, if_false, Option.some_bind, hb]
        by_cases hb0 : b ≥ 0
        · have hbin : inBounds r.textureSamplerIds b = true :=
            inBounds_of_arrGet (hinv.2 S b hb hb0)
          simp [hb0, arrSet_of_inBounds _ _ _ hbin]
        · simp [hb0]
    · simp only [h2, if_false]

/-- Recording a fresh pair keeps the arrays mirrored. -/
theorem pairingInv_record (tsi sti : List Int) (T S : Int)
    (hinv : PairingInv tsi sti)
    (hT : inBounds tsi T = true) (hS : inBounds sti S = true)
    (ha : arrGet tsi T = some (-1)) (hb : arrGet sti S = some (-1)) :
    PairingInv (arrPut tsi T S) (arrPut sti S T) := by
  have hTb := (inBounds_iff _ _).1 hT
  have hSb := (inBounds_iff _ _).1 hS
  constructor
  · intro t v hget hv
    rw [arrGet_arrPut] at hget ⊢
    simp only [hT, hS, true_and] at hget ⊢
    by_cases ht : t = T
    · subst ht
      simp only [if_true, Option.some.injEq] at hget
      subst hget; simp
    · simp only [ht, if_false] at hget
      have h := hinv.1 t v hget hv
      have htb := (inBounds_iff _ _).1 (inBounds_of_arrGet hget)
      by_cases hvS : v = S
      · subst hvS; rw [hb] at h
        have := Option.some.inj h; omega
      · simp [hvS, h]
  · intro s v hget hv
    rw [arrGet_arrPut] at hget ⊢
    simp only [hT, hS, true_and] at hget ⊢
    by_cases hs : s = S
    · subst hs
      simp only [if_true, Option.some.injEq] at hget
      subst hget; simp
    · simp only [hs, if_false] at hget
      have h := hinv.2 s v hget hv
      have hsb := (inBounds_iff _ _).1 (inBounds_of_arrGet hget)
      by_cases hvT : v = T
      · subst hvT; rw [ha] at h
        have := Option.some.inj h; omega
      · simp [hvT, h]

/-- Reading an array after the conditional poisoning of slot `b`. -/
theorem arrGet_poison (xs : List Int) (b j v : Int)
    (h : arrGet (if b ≥ 0 then arrPut xs b (-2) else xs) j = some v) (hv : 0 ≤ v) :
    arrGet xs j = some v ∧ ¬ (0 ≤ b ∧ inBounds xs b = true ∧ j = b) := by
  by_cases hb : b ≥ 0
  · simp only [hb, if_true] at h
    rw [arrGet_arrPut] at h
    by_cases hc : inBounds xs b = true ∧ j = b
    · simp only [hc, and_self, if_true, Option.some.injEq] at h
      omega
    · simp only [hc, if_false] at h
      exact ⟨h, fun hh => hc ⟨hh.2.1, hh.2.2⟩⟩
  · simp only [hb, if_false] at h
    exact ⟨h, fun hh => hb hh.1⟩

/-- Reading a slot that the poisoning does not touch. -/
theorem arrGet_poison_other (xs : List Int) (a S j : Int) (w : Int)
    (h : arrGet xs j = some w) (hS : j ≠ S) (ha : 0 ≤ a → j ≠ a) :
    arrGet (arrPut (if a ≥ 0 then arrPut xs a (-2) else xs) S (-2)) j = some w := by
  rw [arrGet_arrPut]
  simp only [hS, and_false, if_false]
  by_cases ha0 : a ≥ 0
  · simp only [ha0, if_true]
    rw [arrGet_arrPut]
    simp [ha ha0, h]
  · simp only [ha0, if_false]
    exact h

/-- Poisoning both sides of a disagreeing pair keeps the arrays mirrored. -/
theorem pairingInv_poison (tsi sti : List Int) (T S a b : Int)
    (hinv : PairingInv tsi sti)
    (ha : arrGet tsi T = some a) (hb : arrGet sti S = some b) :
    PairingInv
      (arrPut (if b ≥ 0 then arrPut tsi b (-2) else tsi) T (-2))
      (arrPut (if a ≥ 0 then arrPut sti a (-2) else sti) S (-2)) := by
  constructor
  · intro t v hget hv
    rw [arrGet_arrPut] at hget
    by_cases hc : inBounds (if b ≥ 0 then arrPut tsi b (-2) else tsi) T = true ∧ t = T
    · simp only [hc, and_self, if_true, Option.some.injEq] at hget
      omega
    · simp only [hc, if_false] at hget
      obtain ⟨hget0, hnb⟩ := arrGet_poison tsi b t v hget hv
      have h := hinv.1 t v hget0 hv
      have htb := (inBounds_iff _ _).1 (inBounds_of_arrGet hget0)
      apply arrGet_poison_other _ _ _ _ _ h
      · intro hvS
        subst hvS
        rw [hb] at h
        have hbt : b = t := Option.some.inj h
        subst hbt
        exact hnb ⟨htb.1, inBounds_of_arrGet hget0, rfl⟩
      · intro ha0 hva
        subst hva
        have h2 := hinv.1 T v ha ha0
        rw [h] at h2
        have htT : t = T := Option.some.inj h2
        subst htT
        apply hc
        refine ⟨?_, rfl⟩
        have : inBounds tsi t = true := inBounds_of_arrGet hget0
        split
        · rw [inBounds_arrPut]; exact this
        · exact this
  · intro s v hget hv
    rw [arrGet_arrPut] at hget
    by_cases hc : inBounds (if a ≥ 0 then arrPut sti a (-2) else sti) S = true ∧ s = S
    · simp only [hc, and_self, if_true, Option.some.injEq] at hget
      omega
    · simp only [hc, if_false] at hget
      obtain ⟨hget0, hna⟩ := arrGet_poison sti a s v hget hv
      have h := hinv.2 s v hget0 hv
      have hsb := (inBounds_iff _ _).1 (inBounds_of_arrGet hget0)
      apply arrGet_poison_other _ _ _ _ _ h
      · intro hvT
        subst hvT
        rw [ha] at h
        have has : a = s := Option.some.inj h
        subst has
        exact hna ⟨hsb.1, inBounds_of_arrGet hget0, rfl⟩
      · intro hb0 hvb
        subst hvb
        have h2 := hinv.2 S v hb hb0
        rw [h] at h2
        have hsS : s = S := Option.some.inj h2
        subst hsS
        apply hc
        refine ⟨?_, rfl⟩
        have : inBounds sti s = true := inBounds_of_arrGet hget0
        split
        · rw [inBounds_arrPut]; exact this
        · exact this

/-- The pairing step of the specification keeps the arrays mirrored. -/
theorem specPairing_inv (r : DxbcAnalysisInfo) (T S : Int)
    (hinv : PairingInv r.textureSamplerIds r.samplerTextureIds)
    (hT : inBounds r.textureSamplerIds T = true)
    (hS : inBounds r.samplerTextureIds S = true) :
    PairingInv (specPairing r T S).textureSamplerIds
      (specPairing r T S).samplerTextureIds := by
  obtain ⟨a, ha⟩ := arrGet_isSome _ _ hT
  obtain ⟨b, hb⟩ := arrGet_isSome _ _ hS
  unfold specPairing
  simp only [ha, hb]
  by_cases h1 : a = -1 ∧ b = -1
  · simp only [h1, and_self, if_true]
    obtain ⟨rfl, rfl⟩ := h1
    exact pairingInv_record _ _ T S hinv hT hS ha hb
  · simp only [h1, if_false]
    by_cases h2 : a ≠ S ∨ b ≠ T
    · simp only [h2, if_true]
      exact pairingInv_poison _ _ T S a b hinv ha hb
    · simp only [h2, if_false]
      exact hinv

/-- A defined pairing step had both of its slots inside the arrays. -/
theorem handle_some_inBounds (r r1 : DxbcAnalysisInfo) (texture sampler : DxbcRegister)
    (h : handleTextureSamplerPair r texture sampler = some r1) :
    inBounds r.textureSamplerIds (toInt32 texture.idx0offset) = true ∧
    inBounds r.samplerTextureIds (toInt32 sampler.idx0offset) = true := by
  unfold handleTextureSamplerPair at h
  cases ha : arrGet r.textureSamplerIds (toInt32 texture.idx0offset) with
  | none => simp [ha] at h
  | some a =>
    cases hb : arrGet r.samplerTextureIds (toInt32 sampler.idx0offset) with
    | none => simp [ha, hb] at h
    | some b => exact ⟨inBounds_of_arrGet ha, inBounds_of_arrGet hb⟩

/-- How `processInstruction` acts on the pairing arrays: it leaves them alone,
or it runs the pairing step on a record with the same arrays. -/
theorem processInstruction_pairing (a a1 : DxbcAnalysisInfo) (ins : DxbcShaderInstruction)
    (h : processInstruction a ins = some a1) :
    (a1.textureSamplerIds = a.textureSamplerIds ∧
      a1.samplerTextureIds = a.samplerTextureIds) ∨
    ∃ (a0 : DxbcAnalysisInfo) (texture sampler : DxbcRegister),
      a0.textureSamplerIds = a.textureSamplerIds ∧
      a0.samplerTextureIds = a.samplerTextureIds ∧
      handleTextureSamplerPair a0 texture sampler = some a1 := by
  have hg : ∀ a0 : DxbcAnalysisInfo,
      a0.textureSamplerIds = a.textureSamplerIds →
      a0.samplerTextureIds = a.samplerTextureIds →
      gatherCase a0 ins = some a1 →
      ∃ (a0 : DxbcAnalysisInfo) (texture sampler : DxbcRegister),
        a0.textureSamplerIds = a.textureSamplerIds ∧
        a0.samplerTextureIds = a.samplerTextureIds ∧
        handleTextureSamplerPair a0 texture sampler = some a1 := by
    intro a0 h1 h2 hm
    simp only [gatherCase] at hm
    generalize (if ins.op = DxbcOpcode.Gather4Po ∨ ins.op = DxbcOpcode.Gather4PoC
      then 1 else 0 : Nat) = k at hm
    cases hx : ins.src[1 + k]? with
    | none => simp [hx] at hm
    | some tx =>
      cases hy : ins.src[2 + k]? with
      | none => simp [hx, hy] at hm
      | some sm =>
        simp only [hx, hy] at hm
        exact ⟨a0, tx, sm, h1, h2, hm⟩
  unfold processInstruction at h
  cases hc : ins.opClass with
  | Atomic =>
    left
    simp only [hc] at h
    split at h
    · exact absurd h (by simp)
    · split at h
      · split at h
        · exact absurd h (by simp)
        · cases h; exact ⟨rfl, rfl⟩
      · cases h; exact ⟨rfl, rfl⟩
  | TextureSample =>
    right; simp only [hc] at h; exact hg { a with usesDerivatives := true } rfl rfl h
  | TextureQueryLod =>
    right; simp only [hc] at h; exact hg { a with usesDerivatives := true } rfl rfl h
  | TextureGather => right; simp only [hc] at h; exact hg a rfl rfl h
  | VectorDeriv => left; simp only [hc] at h; cases h; exact ⟨rfl, rfl⟩
  | ControlFlow =>
    left
    simp only [hc] at h
    split at h <;> (cases h; exact ⟨rfl, rfl⟩)
  | TypedUavLoad =>
    left
    simp only [hc] at h
    split at h
    · exact absurd h (by simp)
    · split at h
      · exact absurd h (by simp)
      · cases h; exact ⟨rfl, rfl⟩
  | Other tag => left; simp only [hc] at h; cases h; exact ⟨rfl, rfl⟩

/-- Every defined `processInstruction` keeps the pairing arrays mirrored. -/
theorem processInstruction_inv (a a1 : DxbcAnalysisInfo) (ins : DxbcShaderInstruction)
    (hinv : PairingInv a.textureSamplerIds a.samplerTextureIds)
    (h : processInstruction a ins = some a1) :
    PairingInv a1.textureSamplerIds a1.samplerTextureIds := by
  rcases processInstruction_pairing a a1 ins h with ⟨h1, h2⟩ | ⟨a0, tx, sm, h1, h2, hh⟩
  · rw [h1, h2]; exact hinv
  · have hinv0 : PairingInv a0.textureSamplerIds a0.samplerTextureIds := by
      rw [h1, h2]; exact hinv
    obtain ⟨hT, hS⟩ := handle_some_inBounds _ _ _ _ hh
    rw [handle_eq_specPairing a0 tx sm hinv0 hT hS] at hh
    cases hh
    exact specPairing_inv a0 _ _ hinv0 hT hS

/-- Every defined run keeps the pairing arrays mirrored. -/
theorem run_inv (prog : List DxbcShaderInstruction) :
    ∀ (a a1 : DxbcAnalysisInfo),
      PairingInv a.textureSamplerIds a.samplerTextureIds →
      run a prog = some a1 →
      PairingInv a1.textureSamplerIds a1.samplerTextureIds := by
  induction prog with
  | nil => intro a a1 hinv h; simp only [run, Option.some.injEq] at h; subst h; exact hinv
  | cons ins rest ih =>
    intro a a1 hinv h
    simp only [run] at h
    cases hp : processInstruction a ins with
    | none => simp [hp] at h
    | some a2 =>
      simp only [hp, Option.some_bind] at h
      exact ih a2 a1 (processInstruction_inv a a2 ins hinv hp) h

/-- An array filled with `-1` reads `-1` wherever it is defined. -/
theorem arrGet_fill {α : Type} (xs : List α) (i v : Int)
    (h : arrGet (xs.map (fun _ => (-1 : Int))) i = some v) : v = -1 := by
  unfold arrGet at h
  split at h
  · rw [List.getElem?_map] at h
    cases hx : xs[i.toNat]? with
    | none => simp [hx] at h
    | some x => simp [hx] at h; exact h.symm
  · exact absurd h (by simp)

/-- The constructor leaves the pairing arrays mirrored (all entries are `-1`). -/
theorem construct_inv (isgn osgn psgn : DxbcIsgnRef) (analysis : DxbcAnalysisInfo) :
    PairingInv (construct isgn osgn psgn analysis).textureSamplerIds
      (construct isgn osgn psgn analysis).samplerTextureIds := by
  constructor
  · intro t v h hv
    have := arrGet_fill _ _ _ h
    omega
  · intro s v h hv
    have := arrGet_fill _ _ _ h
    omega

/-- A texture-class instruction on mirrored arrays: the flag update of its class,
then the pairing step of the specification. -/
theorem processInstruction_texture (a : DxbcAnalysisInfo) (ins : DxbcShaderInstruction)
    (T S : Int) (hp : observedPair ins = some (T, S))
    (hinv : PairingInv a.textureSamplerIds a.samplerTextureIds)
    (hT : inBounds a.textureSamplerIds T = true)
    (hS : inBounds a.samplerTextureIds S = true) :
    processInstruction a ins =
      some (specPairing
        { a with usesDerivatives := a.usesDerivatives || setsDerivatives ins } T S) := by
  unfold observedPair at hp
  split at hp
  · rename_i hcls
    simp only at hp
    generalize hk : (if ins.op = DxbcOpcode.Gather4Po ∨ ins.op = DxbcOpcode.Gather4PoC
      then 1 else 0 : Nat) = k at hp
    cases hx : ins.src[1 + k]? with
    | none => simp [hx] at hp
    | some tx =>
      cases hy : ins.src[2 + k]? with
      | none => simp [hx, hy] at hp
      | some sm =>
        simp only [hx, hy, Option.some.injEq, Prod.mk.injEq] at hp
        obtain ⟨hTe, hSe⟩ := hp
        have hg : ∀ a0 : DxbcAnalysisInfo,
            a0.textureSamplerIds = a.textureSamplerIds →
            a0.samplerTextureIds = a.samplerTextureIds →
            gatherCase a0 ins = some (specPairing a0 T S) := by
          intro a0 h1 h2
          simp only [gatherCase, hk, hx, hy]
          rw [← hTe, ← hSe]
          apply handle_eq_specPairing
          · rw [h1, h2]; exact hinv
          · rw [h1, hTe]; exact hT
          · rw [h2, hSe]; exact hS
        unfold processInstruction
        rcases hcls with hc | hc | hc
        · simp only [hc]
          rw [hg { a with usesDerivatives := true } rfl rfl]
          simp [setsDerivatives, hc]
        · simp only [hc]
          rw [hg { a with usesDerivatives := true } rfl rfl]
          simp [setsDerivatives, hc]
        · simp only [hc]
          rw [hg a rfl rfl]
          simp [setsDerivatives, hc]
  · exact absurd hp (by simp)

/-! ## Poisoned entries -/

/-- A write of `-2` never unpoisons. -/
theorem arrGet_arrPut_poison (xs : List Int) (i j : Int)
    (h : arrGet xs j = some (-2)) : arrGet (arrPut xs i (-2)) j = some (-2) := by
  rw [arrGet_arrPut]
  split
  · rfl
  · exact h

/-- Rewriting a slot with the value it holds changes nothing. -/
theorem arrPut_same {α : Type} (xs : List α) (i : Int) (v : α)
    (h : arrGet xs i = some v) : arrPut xs i v = xs := by
  have hb := inBounds_of_arrGet h
  have hi := (inBounds_iff _ _).1 hb
  unfold arrGet at h
  simp only [hb, if_true] at h
  unfold arrPut
  simp only [hb, if_true]
  apply List.ext_getElem?
  intro n
  rw [List.getElem?_set]
  split
  · rename_i hn
    subst hn
    have hlt : i.toNat < xs.length := by omega
    simp [hlt, h]
  · rfl

/-- The pairing step of the specification keeps poisoned entries poisoned. -/
theorem specPairing_poison_stays (r : DxbcAnalysisInfo) (T S : Int) :
    (∀ i : Int, arrGet r.textureSamplerIds i = some (-2) →
      arrGet (specPairing r T S).textureSamplerIds i = some (-2)) ∧
    (∀ i : Int, arrGet r.samplerTextureIds i = some (-2) →
      arrGet (specPairing r T S).samplerTextureIds i = some (-2)) := by
  unfold specPairing
  cases ha : arrGet r.textureSamplerIds T with
  | none => exact ⟨fun i h => h, fun i h => h⟩
  | some a =>
    cases hb : arrGet r.samplerTextureIds S with
    | none => exact ⟨fun i h => h, fun i h => h⟩
    | some b =>
      simp only
      by_cases h1 : a = -1 ∧ b = -1
      · simp only [h1, and_self, if_true]
        obtain ⟨rfl, rfl⟩ := h1
        constructor
        · intro i h
          rw [arrGet_arrPut]
          by_cases hi : i = T
          · subst hi; rw [ha] at h; exact absurd h (by decide)
          · simp [hi, h]
        · intro i h
          rw [arrGet_arrPut]
          by_cases hi : i = S
          · subst hi; rw [hb] at h; exact absurd h (by decide)
          · simp [hi, h]
      · simp only [h1, if_false]
        by_cases h2 : a ≠ S ∨ b ≠ T
        · simp only [h2, if_true]
          constructor
          · intro i h
            apply arrGet_arrPut_poison
            split
            · exact arrGet_arrPut_poison _ _ _ h
            · exact h
          · intro i h
            apply arrGet_arrPut_poison
            split
            · exact arrGet_arrPut_poison _ _ _ h
            · exact h
        · simp only [h2, if_false]
          exact ⟨fun i h => h, fun i h => h⟩

/-- On mirrored arrays a defined `processInstruction` keeps poisoned entries
poisoned. -/
theorem processInstruction_poison_stays (a a1 : DxbcAnalysisInfo)
    (ins : DxbcShaderInstruction)
    (hinv : PairingInv a.textureSamplerIds a.samplerTextureIds)
    (h : processInstruction a ins = some a1) :
    (∀ i : Int, arrGet a.textureSamplerIds i = some (-2) →
      arrGet a1.textureSamplerIds i = some (-2)) ∧
    (∀ i : Int, arrGet a.samplerTextureIds i = some (-2) →
      arrGet a1.samplerTextureIds i = some (-2)) := by
  rcases processInstruction_pairing a a1 ins h with ⟨h1, h2⟩ | ⟨a0, tx, sm, h1, h2, hh⟩
  · rw [h1, h2]; exact ⟨fun i h => h, fun i h => h⟩
  · have hinv0 : PairingInv a0.textureSamplerIds a0.samplerTextureIds := by
      rw [h1, h2]; exact hinv
    obtain ⟨hT, hS⟩ := handle_some_inBounds _ _ _ _ hh
    rw [handle_eq_specPairing a0 tx sm hinv0 hT hS] at hh
    cases hh
    rw [← h1, ← h2]
    exact specPairing_poison_stays a0 _ _

/-- On mirrored arrays a defined run keeps poisoned entries poisoned. -/
theorem run_poison_stays (prog : List DxbcShaderInstruction) :
    ∀ (a a1 : DxbcAnalysisInfo),
      PairingInv a.textureSamplerIds a.samplerTextureIds →
      run a prog = some a1 →
      (∀ i : Int, arrGet a.textureSamplerIds i = some (-2) →
        arrGet a1.textureSamplerIds i = some (-2)) ∧
      (∀ i : Int, arrGet a.samplerTextureIds i = some (-2) →
        arrGet a1.samplerTextureIds i = some (-2)) := by
  induction prog with
  | nil =>
    intro a a1 _ h
    simp only [run, Option.some.injEq] at h
    subst h
    exact ⟨fun i h => h, fun i h => h⟩
  | cons ins rest ih =>
    intro a a1 hinv h
    simp only [run] at h
    cases hp : processInstruction a ins with
    | none => simp [hp] at h
    | some a2 =>
      simp only [hp, Option.some_bind] at h
      have hs := processInstruction_poison_stays a a2 ins hinv hp
      have hr := ih a2 a1 (processInstruction_inv a a2 ins hinv hp) h
      exact ⟨fun i hi => hr.1 i (hs.1 i hi), fun i hi => hr.2 i (hs.2 i hi)⟩

/-- Runs compose. -/
theorem run_append (p q : List DxbcShaderInstruction) :
    ∀ a : DxbcAnalysisInfo, run a (p ++ q) = (run a p).bind fun a1 => run a1 q := by
  induction p with
  | nil => intro a; simp [run]
  | cons ins rest ih =>
    intro a
    simp only [List.cons_append, run]
    cases processInstruction a ins with
    | none => simp
    | some a2 => simp [ih]

/-- The specification step when both slots are unassigned. -/
theorem specPairing_record (r : DxbcAnalysisInfo) (T S : Int)
    (ha : arrGet r.textureSamplerIds T = some (-1))
    (hb : arrGet r.samplerTextureIds S = some (-1)) :
    specPairing r T S =
      { r with
        textureSamplerIds := arrPut r.textureSamplerIds T S
        samplerTextureIds := arrPut r.samplerTextureIds S T } := by
  unfold specPairing
  simp [ha, hb]

/-- The specification step when the recorded pairing disagrees. -/
theorem specPairing_poison (r : DxbcAnalysisInfo) (T S a b : Int)
    (ha : arrGet r.textureSamplerIds T = some a)
    (hb : arrGet r.samplerTextureIds S = some b)
    (h1 : ¬ (a = -1 ∧ b = -1)) (h2 : a ≠ S ∨ b ≠ T) :
    specPairing r T S =
      { r with
        textureSamplerIds :=
          arrPut (if b ≥ 0 then arrPut r.textureSamplerIds b (-2) else r.textureSamplerIds) T (-2)
        samplerTextureIds :=
          arrPut (if a ≥ 0 then arrPut r.samplerTextureIds a (-2) else r.samplerTextureIds) S (-2) } := by
  unfold specPairing
  simp only [ha, hb, h1, if_false, h2, if_true]

/-- Reading an array the constructor has filled. -/
theorem arrGet_filled {α : Type} (xs : List α) (i : Int)
    (h : inBounds (xs.map (fun _ => (-1 : Int))) i = true) :
    arrGet (xs.map (fun _ => (-1 : Int))) i = some (-1) := by
  obtain ⟨v, hv⟩ := arrGet_isSome _ _ h
  have := arrGet_fill _ _ _ hv
  subst this
  exact hv

/-- The poisoning scenario: after pairs (0, 0) and (1, 0) the three entries are
poisoned, and a third instruction with pair (0, 0) changes nothing but the
derivative flag of its class. -/
theorem poison_scenario (isgn osgn psgn : DxbcIsgnRef) (analysis : DxbcAnalysisInfo)
    (i1 i2 i3 : DxbcShaderInstruction)
    (hlt : 2 ≤ analysis.textureSamplerIds.length)
    (hls : 1 ≤ analysis.samplerTextureIds.length)
    (h1 : observedPair i1 = some (0, 0)) (h2 : observedPair i2 = some (1, 0))
    (h3 : observedPair i3 = some (0, 0)) :
    ∃ r : DxbcAnalysisInfo,
      run (construct isgn osgn psgn analysis) [i1, i2] = some r ∧
      arrGet r.textureSamplerIds 0 = some (-2) ∧
      arrGet r.textureSamplerIds 1 = some (-2) ∧
      arrGet r.samplerTextureIds 0 = some (-2) ∧
      r.usesDerivatives =
        (analysis.usesDerivatives || setsDerivatives i1 || setsDerivatives i2) ∧
      processInstruction r i3 =
        some { r with usesDerivatives := r.usesDerivatives || setsDerivatives i3 } := by
  have hinv0 := construct_inv isgn osgn psgn analysis
  generalize hc : construct isgn osgn psgn analysis = c at hinv0
  have hct : c.textureSamplerIds = analysis.textureSamplerIds.map (fun _ => (-1 : Int)) := by
    rw [← hc]; rfl
  have hcs : c.samplerTextureIds = analysis.samplerTextureIds.map (fun _ => (-1 : Int)) := by
    rw [← hc]; rfl
  have hcd : c.usesDerivatives = analysis.usesDerivatives := by rw [← hc]; rfl
  have hT0 : inBounds c.textureSamplerIds 0 = true := by
    rw [hct, inBounds_iff]; simp; omega
  have hT1 : inBounds c.textureSamplerIds 1 = true := by
    rw [hct, inBounds_iff]; simp; omega
  have hS0 : inBounds c.samplerTextureIds 0 = true := by
    rw [hcs, inBounds_iff]; simp; omega
  have ha0 : arrGet c.textureSamplerIds 0 = some (-1) := by
    rw [hct] at hT0 ⊢; exact arrGet_filled _ _ hT0
  have ha1 : arrGet c.textureSamplerIds 1 = some (-1) := by
    rw [hct] at hT1 ⊢; exact arrGet_filled _ _ hT1
  have hb0 : arrGet c.samplerTextureIds 0 = some (-1) := by
    rw [hcs] at hS0 ⊢; exact arrGet_filled _ _ hS0
  -- first instruction: the pair (0, 0) is recorded
  have e1 := processInstruction_texture c i1 0 0 h1 hinv0 hT0 hS0
  obtain ⟨r1, hr1⟩ : ∃ r1 : DxbcAnalysisInfo, r1 = specPairing
      { c with usesDerivatives := c.usesDerivatives || setsDerivatives i1 } 0 0 := ⟨_, rfl⟩
  rw [← hr1] at e1
  rw [specPairing_record
    { c with usesDerivatives := c.usesDerivatives || setsDerivatives i1 } 0 0 ha0 hb0] at hr1
  have hinv1 := processInstruction_inv c r1 i1 hinv0 e1
  have hr1t : r1.textureSamplerIds = arrPut c.textureSamplerIds 0 0 := by rw [hr1]
  have hr1s : r1.samplerTextureIds = arrPut c.samplerTextureIds 0 0 := by rw [hr1]
  have hr1d : r1.usesDerivatives = (c.usesDerivatives || setsDerivatives i1) := by rw [hr1]
  have hT1' : inBounds r1.textureSamplerIds 1 = true := by
    rw [hr1t, inBounds_arrPut]; exact hT1
  have hT0' : inBounds r1.textureSamplerIds 0 = true := by
    rw [hr1t, inBounds_arrPut]; exact hT0
  have hS0' : inBounds r1.samplerTextureIds 0 = true := by
    rw [hr1s, inBounds_arrPut]; exact hS0
  have ha1' : arrGet r1.textureSamplerIds 1 = some (-1) := by
    rw [hr1t, arrGet_arrPut]; simp [ha1]
  have hb0' : arrGet r1.samplerTextureIds 0 = some 0 := by
    rw [hr1s, arrGet_arrPut]; simp [hS0]
  -- second instruction: sampler 0 disagrees, both sides are poisoned
  have e2 := processInstruction_texture r1 i2 1 0 h2 hinv1 hT1' hS0'
  obtain ⟨r2, hr2⟩ : ∃ r2 : DxbcAnalysisInfo, r2 = specPairing
      { r1 with usesDerivatives := r1.usesDerivatives || setsDerivatives i2 } 1 0 := ⟨_, rfl⟩
  rw [← hr2] at e2
  rw [specPairing_poison
    { r1 with usesDerivatives := r1.usesDerivatives || setsDerivatives i2 }
    1 0 (-1) 0 ha1' hb0' (by decide) (by decide)] at hr2
  have hneg : ¬ ((-1 : Int) ≥ 0) := by decide
  have hpos : (0 : Int) ≥ 0 := by decide
  simp only [hneg, hpos, if_false, if_true] at hr2
  have hinv2 := processInstruction_inv r1 r2 i2 hinv1 e2
  have hr2t : r2.textureSamplerIds = arrPut (arrPut r1.textureSamplerIds 0 (-2)) 1 (-2) := by
    rw [hr2]
  have hr2s : r2.samplerTextureIds = arrPut r1.samplerTextureIds 0 (-2) := by rw [hr2]
  have hr2d : r2.usesDerivatives = (r1.usesDerivatives || setsDerivatives i2) := by rw [hr2]
  have g0 : arrGet r2.textureSamplerIds 0 = some (-2) := by
    rw [hr2t]
    apply arrGet_arrPut_poison
    rw [arrGet_arrPut]; simp [hT0']
  have g1 : arrGet r2.textureSamplerIds 1 = some (-2) := by
    rw [hr2t, arrGet_arrPut]
    have : inBounds (arrPut r1.textureSamplerIds 0 (-2)) 1 = true := by
      rw [inBounds_arrPut]; exact hT1'
    simp [this]
  have gs : arrGet r2.samplerTextureIds 0 = some (-2) := by
    rw [hr2s, arrGet_arrPut]; simp [hS0']
  -- third instruction: the poisoned entries are written again with -2
  have e3 := processInstruction_texture r2 i3 0 0 h3 hinv2
    (inBounds_of_arrGet g0) (inBounds_of_arrGet gs)
  rw [specPairing_poison
    { r2 with usesDerivatives := r2.usesDerivatives || setsDerivatives i3 }
    0 0 (-2) (-2) g0 gs (by decide) (by decide)] at e3
  have hneg2 : ¬ ((-2 : Int) ≥ 0) := by decide
  simp only [hneg2, if_false] at e3
  rw [arrPut_same _ _ _ g0, arrPut_same _ _ _ gs] at e3
  refine ⟨r2, ?_, g0, g1, gs, ?_, e3⟩
  · simp [run, e1, e2]
  · rw [hr2d, hr1d, hcd]

/-! ## The pairing step against the specification -/

/-- C1: on every record reachable from the constructor's record by
`processInstruction` calls, and for every texture slot `T` and sampler slot `S`
inside the arrays, `handleTextureSamplerPair` returns exactly the record of the
specification's three cases (`specPairing`) evaluated on the pre-step values
`textureSamplerIds[T]` and `samplerTextureIds[S]`; every field other than the
two pairing arrays is the one of the input record. -/
theorem handleTextureSamplerPair_refines_spec
    (isgn osgn psgn : DxbcIsgnRef) (analysis : DxbcAnalysisInfo)
    (prog : List DxbcShaderInstruction) (r : DxbcAnalysisInfo)
    (texture sampler : DxbcRegister)
    (hreach : run (construct isgn osgn psgn analysis) prog = some r)
    (hT : inBounds r.textureSamplerIds (toInt32 texture.idx0offset) = true)
    (hS : inBounds r.samplerTextureIds (toInt32 sampler.idx0offset) = true) :
    ∃ r1 : DxbcAnalysisInfo,
      handleTextureSamplerPair r texture sampler = some r1 ∧
      r1 = specPairing r (toInt32 texture.idx0offset) (toInt32 sampler.idx0offset) ∧
      r1.uavInfos = r.uavInfos ∧ r1.clipCullIn = r.clipCullIn ∧
      r1.clipCullOut = r.clipCullOut ∧ r1.usesDerivatives = r.usesDerivatives ∧
      r1.usesKill = r.usesKill := by
  have hinv := run_inv prog _ r (construct_inv isgn osgn psgn analysis) hreach
  refine ⟨_, handle_eq_specPairing r texture sampler hinv hT hS, rfl, ?_⟩
  unfold specPairing
  split
  · split
    · exact ⟨rfl, rfl, rfl, rfl, rfl⟩
    · split <;> exact ⟨rfl, rfl, rfl, rfl, rfl⟩
  · exact ⟨rfl, rfl, rfl, rfl, rfl⟩

/-- The refinement at a concrete reachable record: texture 1 meets sampler 0,
which is already paired with texture 0. -/
theorem handleTextureSamplerPair_refines_spec_witness :
    ∃ r1 : DxbcAnalysisInfo,
      handleTextureSamplerPair examplePaired
        ⟨DxbcOperandType.Other 1, 1⟩ ⟨DxbcOperandType.Other 2, 0⟩ = some r1 ∧
      r1 = specPairing examplePaired (toInt32 1) (toInt32 0) ∧
      r1.uavInfos = examplePaired.uavInfos ∧ r1.clipCullIn = examplePaired.clipCullIn ∧
      r1.clipCullOut = examplePaired.clipCullOut ∧
      r1.usesDerivatives = examplePaired.usesDerivatives ∧
      r1.usesKill = examplePaired.usesKill :=
  handleTextureSamplerPair_refines_spec none none none exampleRecord
    [exampleTexIns DxbcInstClass.TextureSample 0 0] examplePaired
    ⟨DxbcOperandType.Other 1, 1⟩ ⟨DxbcOperandType.Other 2, 0⟩
    (by decide) (by decide) (by decide)

/-! ## Permanence of poisoning -/

/-- C2 (amended): a poisoned entry (`-2`) of either pairing array of a record
reached from the constructor stays `-2` through every later run of
`processInstruction`; and after instructions observing the pairs (0, 0) and
(1, 0) the entries `textureSamplerIds[0]`, `textureSamplerIds[1]` and
`samplerTextureIds[0]` are `-2`, a further instruction observing (0, 0) changes
nothing but `usesDerivatives`, which it sets when it is a sample or query-lod,
so the record is unchanged when that instruction is a gather or the flag is
already set. -/
theorem poisoning_is_permanent :
    (∀ (isgn osgn psgn : DxbcIsgnRef) (analysis : DxbcAnalysisInfo)
        (pre post : List DxbcShaderInstruction) (r1 r2 : DxbcAnalysisInfo),
        run (construct isgn osgn psgn analysis) pre = some r1 →
        run r1 post = some r2 →
        (∀ i : Int, arrGet r1.textureSamplerIds i = some (-2) →
          arrGet r2.textureSamplerIds i = some (-2)) ∧
        (∀ i : Int, arrGet r1.samplerTextureIds i = some (-2) →
          arrGet r2.samplerTextureIds i = some (-2))) ∧
    (∀ (isgn osgn psgn : DxbcIsgnRef) (analysis : DxbcAnalysisInfo)
        (i1 i2 i3 : DxbcShaderInstruction),
        2 ≤ analysis.textureSamplerIds.length →
        1 ≤ analysis.samplerTextureIds.length →
        observedPair i1 = some (0, 0) → observedPair i2 = some (1, 0) →
        observedPair i3 = some (0, 0) →
        ∃ r : DxbcAnalysisInfo,
          run (construct isgn osgn psgn analysis) [i1, i2] = some r ∧
          arrGet r.textureSamplerIds 0 = some (-2) ∧
          arrGet r.textureSamplerIds 1 = some (-2) ∧
          arrGet r.samplerTextureIds 0 = some (-2) ∧
          processInstruction r i3 =
            some { r with usesDerivatives := r.usesDerivatives || setsDerivatives i3 } ∧
          (setsDerivatives i3 = false ∨ r.usesDerivatives = true →
            processInstruction r i3 = some r)) := by
  constructor
  · intro isgn osgn psgn analysis pre post r1 r2 h1 h2
    have hinv := run_inv pre _ r1 (construct_inv isgn osgn psgn analysis) h1
    exact run_poison_stays post r1 r2 hinv h2
  · intro isgn osgn psgn analysis i1 i2 i3 hlt hls h1 h2 h3
    obtain ⟨r, hrun, g0, g1, gs, _, e3⟩ :=
      poison_scenario isgn osgn psgn analysis i1 i2 i3 hlt hls h1 h2 h3
    refine ⟨r, hrun, g0, g1, gs, e3, ?_⟩
    intro hd
    rw [e3]
    cases r with
    | mk u t sm ci co d k =>
      rcases hd with hd | hd
      · simp [hd]
      · simp only at hd
        simp [hd]

/-- The permanence statement at a concrete stream: three samples observing
(0, 0), (1, 0), (0, 0). -/
theorem poisoning_is_permanent_witness :
    ∃ r : DxbcAnalysisInfo,
      run (construct none none none exampleRecord)
        [exampleTexIns DxbcInstClass.TextureSample 0 0,
         exampleTexIns DxbcInstClass.TextureSample 1 0] = some r ∧
      arrGet r.textureSamplerIds 0 = some (-2) ∧
      arrGet r.textureSamplerIds 1 = some (-2) ∧
      arrGet r.samplerTextureIds 0 = some (-2) ∧
      processInstruction r (exampleTexIns DxbcInstClass.TextureSample 0 0) =
        some { r with usesDerivatives := r.usesDerivatives ||
          setsDerivatives (exampleTexIns DxbcInstClass.TextureSample 0 0) } ∧
      (setsDerivatives (exampleTexIns DxbcInstClass.TextureSample 0 0) = false ∨
          r.usesDerivatives = true →
        processInstruction r (exampleTexIns DxbcInstClass.TextureSample 0 0) = some r) :=
  poisoning_is_permanent.2 none none none exampleRecord
    (exampleTexIns DxbcInstClass.TextureSample 0 0)
    (exampleTexIns DxbcInstClass.TextureSample 1 0)
    (exampleTexIns DxbcInstClass.TextureSample 0 0)
    (by decide) (by decide) (by decide) (by decide) (by decide)

/-- C2 as stated fails: after gathers observing (0, 0) and (1, 0) on a fresh
record, a sample observing (0, 0) does not leave the record unchanged (it sets
`usesDerivatives`). -/
theorem poisoning_third_instruction_counterexample :
    run (construct none none none exampleRecord)
      [exampleTexIns DxbcInstClass.TextureGather 0 0,
       exampleTexIns DxbcInstClass.TextureGather 1 0] = some examplePoisoned ∧
    observedPair (exampleTexIns DxbcInstClass.TextureSample 0 0) = some (0, 0) ∧
    processInstruction examplePoisoned (exampleTexIns DxbcInstClass.TextureSample 0 0) =
      some { examplePoisoned with usesDerivatives := true } ∧
    processInstruction examplePoisoned (exampleTexIns DxbcInstClass.TextureSample 0 0) ≠
      some examplePoisoned := by
  decide

/-! ## Clip and cull plane counts -/

/-- The fold of `getClipCullInfo` adds, to each counter, the mask popcounts of
the elements of its system value. -/
theorem foldl_clipCullStep (entries : List DxbcSgnEntry) :
    ∀ acc : DxbcClipCullInfo,
      (entries.foldl clipCullStep acc).numClipPlanes =
        acc.numClipPlanes +
          ((entries.filter (fun e => e.systemValue = DxbcSystemValue.ClipDistance)).map
            (fun e => e.componentMask.popCount)).sum ∧
      (entries.foldl clipCullStep acc).numCullPlanes =
        acc.numCullPlanes +
          ((entries.filter (fun e => e.systemValue = DxbcSystemValue.CullDistance)).map
            (fun e => e.componentMask.popCount)).sum := by
  induction entries with
  | nil => intro acc; simp
  | cons e rest ih =>
    intro acc
    simp only [List.foldl_cons]
    obtain ⟨h1, h2⟩ := ih (clipCullStep acc e)
    rw [h1, h2]
    unfold clipCullStep
    by_cases hc : e.systemValue = DxbcSystemValue.ClipDistance
    · have hne : e.systemValue ≠ DxbcSystemValue.CullDistance := by rw [hc]; decide
      simp [hc, List.filter_cons, Nat.add_assoc]
    · by_cases hd : e.systemValue = DxbcSystemValue.CullDistance
      · simp [hd, List.filter_cons, Nat.add_assoc]
      · simp [hc, hd, List.filter_cons]

/-- The plane counts of a signature, as sums over its elements. -/
theorem getClipCullInfo_eq (entries : List DxbcSgnEntry) :
    getClipCullInfo (some entries) =
      { numClipPlanes :=
          ((entries.filter (fun e => e.systemValue = DxbcSystemValue.ClipDistance)).map
            (fun e => e.componentMask.popCount)).sum
        numCullPlanes :=
          ((entries.filter (fun e => e.systemValue = DxbcSystemValue.CullDistance)).map
            (fun e => e.componentMask.popCount)).sum } := by
  obtain ⟨h1, h2⟩ := foldl_clipCullStep entries {}
  simp only [getClipCullInfo]
  cases hf : entries.foldl clipCullStep {} with
  | mk c d =>
    rw [hf] at h1 h2
    simp at h1 h2
    rw [h1, h2]

/-- C3: after construction `clipCullIn.numClipPlanes` is the sum of the mask
popcounts of the clip-distance elements of the input signature and
`clipCullIn.numCullPlanes` the same sum over its cull-distance elements;
`clipCullOut` is the same function of the output signature; neither depends on
the other signatures (or on the record handed in), a null signature gives
(0, 0), and a clip-distance element of 3 mask bits followed by a cull-distance
element of 2 mask bits gives `clipCullIn` = (3, 2). -/
theorem clipCull_at_construction :
    (∀ (entries : List DxbcSgnEntry) (osgn psgn : DxbcIsgnRef) (analysis : DxbcAnalysisInfo),
      (construct (some entries) osgn psgn analysis).clipCullIn =
        { numClipPlanes :=
            ((entries.filter (fun e => e.systemValue = DxbcSystemValue.ClipDistance)).map
              (fun e => e.componentMask.popCount)).sum
          numCullPlanes :=
            ((entries.filter (fun e => e.systemValue = DxbcSystemValue.CullDistance)).map
              (fun e => e.componentMask.popCount)).sum }) ∧
    (∀ (entries : List DxbcSgnEntry) (isgn psgn : DxbcIsgnRef) (analysis : DxbcAnalysisInfo),
      (construct isgn (some entries) psgn analysis).clipCullOut =
        { numClipPlanes :=
            ((entries.filter (fun e => e.systemValue = DxbcSystemValue.ClipDistance)).map
              (fun e => e.componentMask.popCount)).sum
          numCullPlanes :=
            ((entries.filter (fun e => e.systemValue = DxbcSystemValue.CullDistance)).map
              (fun e => e.componentMask.popCount)).sum }) ∧
    (∀ (isgn osgn osgn1 psgn psgn1 : DxbcIsgnRef) (analysis analysis1 : DxbcAnalysisInfo),
      (construct isgn osgn psgn analysis).clipCullIn =
        (construct isgn osgn1 psgn1 analysis1).clipCullIn) ∧
    (∀ (isgn isgn1 osgn psgn psgn1 : DxbcIsgnRef) (analysis analysis1 : DxbcAnalysisInfo),
      (construct isgn osgn psgn analysis).clipCullOut =
        (construct isgn1 osgn psgn1 analysis1).clipCullOut) ∧
    (∀ (osgn psgn : DxbcIsgnRef) (analysis : DxbcAnalysisInfo),
      (construct none osgn psgn analysis).clipCullIn =
        { numClipPlanes := 0, numCullPlanes := 0 }) ∧
    (∀ (isgn psgn : DxbcIsgnRef) (analysis : DxbcAnalysisInfo),
      (construct isgn none psgn analysis).clipCullOut =
        { numClipPlanes := 0, numCullPlanes := 0 }) ∧
    (∀ (m1 m2 : DxbcRegMask) (osgn psgn : DxbcIsgnRef) (analysis : DxbcAnalysisInfo),
      m1.popCount = 3 → m2.popCount = 2 →
      (construct (some [⟨DxbcSystemValue.ClipDistance, m1⟩,
          ⟨DxbcSystemValue.CullDistance, m2⟩]) osgn psgn analysis).clipCullIn =
        { numClipPlanes := 3, numCullPlanes := 2 }) := by
  refine ⟨?_, ?_, ?_, ?_, ?_, ?_, ?_⟩
  · intro entries osgn psgn analysis
    exact getClipCullInfo_eq entries
  · intro entries isgn psgn analysis
    exact getClipCullInfo_eq entries
  · intros; rfl
  · intros; rfl
  · intros; rfl
  · intros; rfl
  · intro m1 m2 osgn psgn analysis h1 h2
    have h := getClipCullInfo_eq [⟨DxbcSystemValue.ClipDistance, m1⟩,
      ⟨DxbcSystemValue.CullDistance, m2⟩]
    simp [h1, h2] at h
    exact h

/-- The counts for the masks `0b0111` (clip) and `0b0011` (cull), with an
output signature that does not enter `clipCullIn`. -/
theorem clipCull_at_construction_witness :
    (construct (some [⟨DxbcSystemValue.ClipDistance, ⟨7⟩⟩,
        ⟨DxbcSystemValue.CullDistance, ⟨3⟩⟩])
      (some [⟨DxbcSystemValue.ClipDistance, ⟨15⟩⟩]) none exampleRecord).clipCullIn =
      { numClipPlanes := 3, numCullPlanes := 2 } :=
  clipCull_at_construction.2.2.2.2.2.2 ⟨7⟩ ⟨3⟩
    (some [⟨DxbcSystemValue.ClipDistance, ⟨15⟩⟩]) none exampleRecord
    (by decide) (by decide)

/-! ## Monotone flags -/

theorem flagsKept_refl (a : DxbcAnalysisInfo) : FlagsKept a a :=
  ⟨fun h => h, fun h => h, fun _ u h => ⟨u, h, fun h => h, fun h => h⟩⟩

theorem flagsKept_trans (a b c : DxbcAnalysisInfo) (h1 : FlagsKept a b)
    (h2 : FlagsKept b c) : FlagsKept a c := by
  refine ⟨fun h => h2.1 (h1.1 h), fun h => h2.2.1 (h1.2.1 h), ?_⟩
  intro i u hu
  obtain ⟨u1, hu1, ha1, ht1⟩ := h1.2.2 i u hu
  obtain ⟨u2, hu2, ha2, ht2⟩ := h2.2.2 i u1 hu1
  exact ⟨u2, hu2, fun h => ha2 (ha1 h), fun h => ht2 (ht1 h)⟩

/-- The pairing step writes the two pairing arrays only, on any record. -/
theorem handle_frame (a a1 : DxbcAnalysisInfo) (texture sampler : DxbcRegister)
    (h : handleTextureSamplerPair a texture sampler = some a1) :
    a1.uavInfos = a.uavInfos ∧ a1.clipCullIn = a.clipCullIn ∧
    a1.clipCullOut = a.clipCullOut ∧ a1.usesDerivatives = a.usesDerivatives ∧
    a1.usesKill = a.usesKill := by
  unfold handleTextureSamplerPair at h
  cases hx : arrGet a.textureSamplerIds (toInt32 texture.idx0offset) with
  | none => simp [hx] at h
  | some x =>
    cases hy : arrGet a.samplerTextureIds (toInt32 sampler.idx0offset) with
    | none => simp [hx, hy] at h
    | some y =>
      simp only [hx, hy] at h
      split at h
      · cases h; exact ⟨rfl, rfl, rfl, rfl, rfl⟩
      · split at h
        · simp only [Option.bind_eq_some] at h
          obtain ⟨b1, hb1, y1, _, b2, hb2, h⟩ := h
          have f1 : b1.uavInfos = a.uavInfos ∧ b1.clipCullIn = a.clipCullIn ∧
              b1.clipCullOut = a.clipCullOut ∧ b1.usesDerivatives = a.usesDerivatives ∧
              b1.usesKill = a.usesKill := by
            split at hb1
            · simp only [Option.map_eq_some'] at hb1
              obtain ⟨s, _, hs⟩ := hb1
              subst hs; exact ⟨rfl, rfl, rfl, rfl, rfl⟩
            · cases hb1; exact ⟨rfl, rfl, rfl, rfl, rfl⟩
          have f2 : b2.uavInfos = b1.uavInfos ∧ b2.clipCullIn = b1.clipCullIn ∧
              b2.clipCullOut = b1.clipCullOut ∧ b2.usesDerivatives = b1.usesDerivatives ∧
              b2.usesKill = b1.usesKill := by
            split at hb2
            · simp only [Option.map_eq_some'] at hb2
              obtain ⟨t, _, ht⟩ := hb2
              subst ht; exact ⟨rfl, rfl, rfl, rfl, rfl⟩
            · cases hb2; exact ⟨rfl, rfl, rfl, rfl, rfl⟩
          cases h
          obtain ⟨p1, p2, p3, p4, p5⟩ := f1
          obtain ⟨q1, q2, q3, q4, q5⟩ := f2
          exact ⟨q1.trans p1, q2.trans p2, q3.trans p3, q4.trans p4, q5.trans p5⟩
        · cases h; exact ⟨rfl, rfl, rfl, rfl, rfl⟩

/-- The gather block writes the two pairing arrays only. -/
theorem gatherCase_frame (a a1 : DxbcAnalysisInfo) (ins : DxbcShaderInstruction)
    (h : gatherCase a ins = some a1) :
    a1.uavInfos = a.uavInfos ∧ a1.clipCullIn = a.clipCullIn ∧
    a1.clipCullOut = a.clipCullOut ∧ a1.usesDerivatives = a.usesDerivatives ∧
    a1.usesKill = a.usesKill := by
  simp only [gatherCase] at h
  generalize (if ins.op = DxbcOpcode.Gather4Po ∨ ins.op = DxbcOpcode.Gather4PoC
    then 1 else 0 : Nat) = k at h
  cases hx : ins.src[1 + k]? with
  | none => simp [hx] at h
  | some tx =>
    cases hy : ins.src[2 + k]? with
    | none => simp [hx, hy] at h
    | some sm =>
      simp only [hx, hy] at h
      exact handle_frame a a1 tx sm h

/-- Setting one access flag of one UAV slot keeps every flag that was set. -/
theorem uav_set_kept (us : List DxbcUavInfo) (n : Nat) (u0 v : DxbcUavInfo)
    (h0 : us[n]? = some u0)
    (hA : u0.accessAtomicOp = true → v.accessAtomicOp = true)
    (hL : u0.accessTypedLoad = true → v.accessTypedLoad = true) :
    ∀ (i : Nat) (u : DxbcUavInfo), us[i]? = some u →
      ∃ u1 : DxbcUavInfo, (us.set n v)[i]? = some u1 ∧
        (u.accessAtomicOp = true → u1.accessAtomicOp = true) ∧
        (u.accessTypedLoad = true → u1.accessTypedLoad = true) := by
  intro i u hu
  rw [List.getElem?_set]
  by_cases hi : n = i
  · subst hi
    have hlt : n < us.length := by
      rcases Nat.lt_or_ge n us.length with h | h
      · exact h
      · rw [List.getElem?_eq_none h] at hu; exact absurd hu (by simp)
    rw [h0] at hu
    cases hu
    exact ⟨v, by simp [hlt], hA, hL⟩
  · exact ⟨u, by simp [hi, hu], fun h => h, fun h => h⟩

/-- A defined `processInstruction` clears no flag. -/
theorem processInstruction_flagsKept (a a1 : DxbcAnalysisInfo) (ins : DxbcShaderInstruction)
    (h : processInstruction a ins = some a1) : FlagsKept a a1 := by
  have hg : ∀ a0 : DxbcAnalysisInfo, a0.uavInfos = a.uavInfos →
      (a.usesDerivatives = true → a0.usesDerivatives = true) → a0.usesKill = a.usesKill →
      gatherCase a0 ins = some a1 → FlagsKept a a1 := by
    intro a0 hu hd hk hm
    obtain ⟨f1, _, _, f4, f5⟩ := gatherCase_frame a0 a1 ins hm
    refine ⟨fun h => by rw [f4]; exact hd h, fun h => by rw [f5, hk]; exact h, ?_⟩
    intro i u hi
    exact ⟨u, by rw [f1, hu]; exact hi, fun h => h, fun h => h⟩
  unfold processInstruction at h
  cases hc : ins.opClass with
  | Atomic =>
    simp only [hc] at h
    split at h
    · exact absurd h (by simp)
    · split at h
      · split at h
        · exact absurd h (by simp)
        · rename_i u0 hu0
          cases h
          exact ⟨fun h => h, fun h => h,
            uav_set_kept _ _ u0 _ hu0 (fun _ => rfl) (fun h => h)⟩
      · cases h; exact flagsKept_refl a
  | TextureSample =>
    simp only [hc] at h
    exact hg { a with usesDerivatives := true } rfl (fun _ => rfl) rfl h
  | TextureQueryLod =>
    simp only [hc] at h
    exact hg { a with usesDerivatives := true } rfl (fun _ => rfl) rfl h
  | TextureGather =>
    simp only [hc] at h
    exact hg a rfl (fun h => h) rfl h
  | VectorDeriv =>
    simp only [hc] at h; cases h
    exact ⟨fun _ => rfl, fun h => h, fun _ u h => ⟨u, h, fun h => h, fun h => h⟩⟩
  | ControlFlow =>
    simp only [hc] at h
    split at h
    · cases h
      exact ⟨fun h => h, fun _ => rfl, fun _ u h => ⟨u, h, fun h => h, fun h => h⟩⟩
    · cases h; exact flagsKept_refl a
  | TypedUavLoad =>
    simp only [hc] at h
    split at h
    · exact absurd h (by simp)
    · split at h
      · exact absurd h (by simp)
      · rename_i u0 hu0
        cases h
        exact ⟨fun h => h, fun h => h,
          uav_set_kept _ _ u0 _ hu0 (fun h => h) (fun _ => rfl)⟩
  | Other tag => simp only [hc] at h; cases h; exact flagsKept_refl a

/-- A defined run clears no flag. -/
theorem run_flagsKept (prog : List DxbcShaderInstruction) :
    ∀ (a a1 : DxbcAnalysisInfo), run a prog = some a1 → FlagsKept a a1 := by
  induction prog with
  | nil => intro a a1 h; simp only [run, Option.some.injEq] at h; subst h; exact flagsKept_refl a
  | cons ins rest ih =>
    intro a a1 h
    simp only [run] at h
    cases hp : processInstruction a ins with
    | none => simp [hp] at h
    | some a2 =>
      simp only [hp, Option.some_bind] at h
      exact flagsKept_trans a a2 a1 (processInstruction_flagsKept a a2 ins hp) (ih a2 a1 h)

/-- C4: for every record and every instruction on which `processInstruction`
is defined (operand slots in range), no flag among `usesDerivatives`,
`usesKill`, `uavInfos[i].accessAtomicOp`, `uavInfos[i].accessTypedLoad` goes
from true to false; hence over any instruction sequence, and from any point of
it on, a flag that is true stays true. -/
theorem flags_never_cleared :
    (∀ (a a1 : DxbcAnalysisInfo) (ins : DxbcShaderInstruction),
      processInstruction a ins = some a1 → FlagsKept a a1) ∧
    (∀ (a a1 a2 : DxbcAnalysisInfo) (pre post : List DxbcShaderInstruction),
      run a pre = some a1 → run a1 post = some a2 →
      FlagsKept a a1 ∧ FlagsKept a1 a2 ∧ FlagsKept a a2) := by
  constructor
  · exact processInstruction_flagsKept
  · intro a a1 a2 pre post h1 h2
    have k1 := run_flagsKept pre a a1 h1
    have k2 := run_flagsKept post a1 a2 h2
    exact ⟨k1, k2, flagsKept_trans a a1 a2 k1 k2⟩

/-- A typed load from UAV slot 1 on a record whose other flags are set, then
a discard: nothing that was set is cleared. -/
theorem flags_never_cleared_witness :
    FlagsKept exampleFlagged
      { exampleFlagged with uavInfos := [⟨true, true⟩, ⟨true, false⟩] } ∧
    (FlagsKept exampleRecord exampleFlagged ∧
      FlagsKept exampleFlagged { exampleFlagged with uavInfos := [⟨true, true⟩, ⟨true, false⟩] } ∧
      FlagsKept exampleRecord { exampleFlagged with uavInfos := [⟨true, true⟩, ⟨true, false⟩] }) :=
  ⟨flags_never_cleared.1 exampleFlagged _ (exampleTypedLoad 1) (by decide),
   flags_never_cleared.2 exampleRecord exampleFlagged _
     [exampleTexIns DxbcInstClass.VectorDeriv 0 0, exampleAtomic 0, exampleTypedLoad 0,
      exampleDiscard]
     [exampleTypedLoad 1] (by decide) (by decide)⟩

end DxbcAnalyzer

/-! ## The instance cache -/

namespace DxvkComputePipeline

variable {κ δ : Type}

/-- The world after `createPipeline`: one more driver call, nothing else. -/
theorem createPipeline_world (env : DxvkComputePipelineEnv κ δ)
    (w : DxvkComputePipelineWorld δ) (state : DxvkComputePipelineStateInfo) :
    (createPipeline env w state).2 =
      { w with
        driver := (env.vkCreateComputePipelines w.driver (pipelineCreateInfo env state)).2.2
        vkCalls := w.vkCalls ++ [pipelineCreateInfo env state] } := by
  unfold createPipeline
  simp only
  split <;> rfl

/-- The handle `createPipeline` returns. -/
theorem createPipeline_handle (env : DxvkComputePipelineEnv κ δ)
    (w : DxvkComputePipelineWorld δ) (state : DxvkComputePipelineStateInfo) :
    (createPipeline env w state).1 =
      if (env.vkCreateComputePipelines w.driver (pipelineCreateInfo env state)).1 ≠ VK_SUCCESS
      then VK_NULL_HANDLE
      else (env.vkCreateComputePipelines w.driver (pipelineCreateInfo env state)).2.1 := by
  unfold createPipeline
  simp only
  split <;> rfl

/-- The cache write touches the state cache only. -/
theorem writePipelineStateToCache_frame (env : DxvkComputePipelineEnv κ δ)
    (w : DxvkComputePipelineWorld δ) (state : DxvkComputePipelineStateInfo) :
    (writePipelineStateToCache env w state).m_pipelines = w.m_pipelines ∧
    (writePipelineStateToCache env w state).vkCalls = w.vkCalls ∧
    (writePipelineStateToCache env w state).m_numComputePipelines = w.m_numComputePipelines ∧
    (writePipelineStateToCache env w state).driver = w.driver := by
  unfold writePipelineStateToCache
  split <;> exact ⟨rfl, rfl, rfl, rfl⟩

/-- The instance `createInstance` returns and the world it leaves. -/
theorem createInstance_eq (env : DxvkComputePipelineEnv κ δ)
    (w : DxvkComputePipelineWorld δ) (state : DxvkComputePipelineStateInfo) :
    createInstance env w state =
      (some ⟨state, (createPipeline env w state).1⟩,
       { m_pipelines := w.m_pipelines ++ [⟨state, (createPipeline env w state).1⟩]
         m_numComputePipelines := w.m_numComputePipelines + 1
         m_stateCache := w.m_stateCache
         driver := (env.vkCreateComputePipelines w.driver (pipelineCreateInfo env state)).2.2
         vkCalls := w.vkCalls ++ [pipelineCreateInfo env state] }) := by
  unfold createInstance
  simp only [createPipeline_world]

variable [DecidableEq κ]

theorem findInstance_eq_none_iff (env : DxvkComputePipelineEnv κ δ)
    (w : DxvkComputePipelineWorld δ) (state : DxvkComputePipelineStateInfo) :
    findInstance env w state = none ↔ env.affecting state ∉ keys env w := by
  unfold findInstance keys
  rw [List.find?_eq_none]
  simp only [isCompatible, compatible, decide_eq_true_eq, List.mem_map, not_exists, not_and]

theorem findInstance_some_compatible (env : DxvkComputePipelineEnv κ δ)
    (w : DxvkComputePipelineWorld δ) (state : DxvkComputePipelineStateInfo)
    (inst : DxvkComputePipelineInstance) (h : findInstance env w state = some inst) :
    inst ∈ w.m_pipelines ∧ isCompatible env inst state = true := by
  unfold findInstance at h
  have h2 := List.find?_some h
  exact ⟨List.mem_of_find?_eq_some h, h2⟩

theorem findInstance_isSome_of_mem (env : DxvkComputePipelineEnv κ δ)
    (w : DxvkComputePipelineWorld δ) (state : DxvkComputePipelineStateInfo)
    (h : env.affecting state ∈ keys env w) :
    ∃ inst, findInstance env w state = some inst := by
  cases hf : findInstance env w state with
  | none => exact absurd h ((findInstance_eq_none_iff env w state).1 hf)
  | some inst => exact ⟨inst, rfl⟩

/-- A call whose state is compatible with a recorded instance changes nothing. -/
theorem step_hit (env : DxvkComputePipelineEnv κ δ) (w : DxvkComputePipelineWorld δ)
    (c : Call) (h : env.affecting c.state ∈ keys env w) : step env w c = w := by
  obtain ⟨inst, hf⟩ := findInstance_isSome_of_mem env w c.state h
  cases c with
  | getPipelineHandle s => simp only [Call.state] at hf; simp [step, getPipelineHandle, hf]
  | compilePipeline s => simp only [Call.state] at hf; simp [step, compilePipeline, hf]

/-- A call whose state is compatible with no recorded instance compiles once
and appends the instance, whatever the driver answers. -/
theorem step_miss (env : DxvkComputePipelineEnv κ δ) (w : DxvkComputePipelineWorld δ)
    (c : Call) (h : env.affecting c.state ∉ keys env w) :
    (step env w c).m_pipelines =
      w.m_pipelines ++ [⟨c.state, (createPipeline env w c.state).1⟩] ∧
    (step env w c).vkCalls = w.vkCalls ++ [pipelineCreateInfo env c.state] ∧
    (step env w c).m_numComputePipelines = w.m_numComputePipelines + 1 := by
  have hf := (findInstance_eq_none_iff env w c.state).2 h
  cases c with
  | getPipelineHandle s =>
    simp only [Call.state] at hf ⊢
    simp only [step, getPipelineHandle, hf, createInstance_eq]
    obtain ⟨f1, f2, f3, _⟩ := writePipelineStateToCache_frame env
      { m_pipelines := w.m_pipelines ++ [⟨s, (createPipeline env w s).1⟩]
        m_numComputePipelines := w.m_numComputePipelines + 1
        m_stateCache := w.m_stateCache
        driver := (env.vkCreateComputePipelines w.driver (pipelineCreateInfo env s)).2.2
        vkCalls := w.vkCalls ++ [pipelineCreateInfo env s] } s
    exact ⟨f1, f2, f3⟩
  | compilePipeline s =>
    simp only [Call.state] at hf ⊢
    simp [step, compilePipeline, hf, createInstance_eq]

theorem mem_foldl_addKey (ks : List κ) :
    ∀ (K : List κ) (k : κ), k ∈ ks.foldl addKey K ↔ k ∈ K ∨ k ∈ ks := by
  induction ks with
  | nil => intro K k; simp
  | cons x xs ih =>
    intro K k
    simp only [List.foldl_cons, ih, List.mem_cons]
    unfold addKey
    split
    · rename_i hx
      constructor
      · rintro (h | h)
        · exact Or.inl h
        · exact Or.inr (Or.inr h)
      · rintro (h | h | h)
        · exact Or.inl h
        · subst h; exact Or.inl hx
        · exact Or.inr h
    · simp only [List.mem_append, List.mem_singleton]
      tauto

theorem nodup_foldl_addKey (ks : List κ) :
    ∀ K : List κ, K.Nodup → (ks.foldl addKey K).Nodup := by
  induction ks with
  | nil => intro K h; exact h
  | cons x xs ih =>
    intro K h
    simp only [List.foldl_cons]
    apply ih
    unfold addKey
    split
    · exact h
    · rename_i hx
      rw [List.nodup_append]
      refine ⟨h, List.nodup_singleton x, ?_⟩
      intro a ha hb
      rw [List.mem_singleton] at hb
      subst hb
      exact hx ha

theorem length_foldl_addKey_nil (ks : List κ) :
    (ks.foldl addKey []).length = ks.dedup.length := by
  have hn := nodup_foldl_addKey ks [] List.nodup_nil
  rw [← List.toFinset_card_of_nodup hn, ← List.card_toFinset]
  congr 1
  ext k
  simp [mem_foldl_addKey]

/-- The recorded keys after one call. -/
theorem keys_step (env : DxvkComputePipelineEnv κ δ) (w : DxvkComputePipelineWorld δ)
    (c : Call) :
    keys env (step env w c) = addKey (keys env w) (env.affecting c.state) ∧
    (step env w c).vkCalls.length + (keys env w).length =
      w.vkCalls.length + (keys env (step env w c)).length := by
  by_cases h : env.affecting c.state ∈ keys env w
  · rw [step_hit env w c h]
    simp [addKey, h]
  · obtain ⟨h1, h2, _⟩ := step_miss env w c h
    have hk : keys env (step env w c) = keys env w ++ [env.affecting c.state] := by
      unfold keys; rw [h1]; simp
    rw [hk, h2]
    simp [addKey, h]
    omega

/-- The recorded keys after a sequence of calls, and the number of compiles. -/
theorem keys_runCalls (env : DxvkComputePipelineEnv κ δ) (calls : List Call) :
    ∀ w : DxvkComputePipelineWorld δ,
      keys env (runCalls env w calls) =
        (calls.map (fun c => env.affecting c.state)).foldl addKey (keys env w) ∧
      (runCalls env w calls).vkCalls.length + (keys env w).length =
        w.vkCalls.length + (keys env (runCalls env w calls)).length := by
  induction calls with
  | nil => intro w; simp [runCalls]
  | cons c cs ih =>
    intro w
    obtain ⟨h1, h2⟩ := keys_step env w c
    obtain ⟨h3, h4⟩ := ih (step env w c)
    simp only [runCalls, List.foldl_cons, List.map_cons] at h3 h4 ⊢
    refine ⟨?_, ?_⟩
    · rw [h3, h1]
    · omega

/-- C5: on a freshly constructed pipeline object and for every sequence of
`getPipelineHandle` and `compilePipeline` calls, a call whose state vector is
compatible with the state vector of an earlier call hands nothing to the
driver (and changes nothing at all), and the number of compiles made by the
whole sequence is the number of pairwise-incompatible state vectors requested,
so never more. -/
theorem at_most_one_compile_per_state (env : DxvkComputePipelineEnv κ δ)
    (w : DxvkComputePipelineWorld δ) (hfresh : w.m_pipelines = []) :
    (∀ (pre : List Call) (c0 c : Call), c0 ∈ pre →
      compatible env c0.state c.state = true →
      (step env (runCalls env w pre) c).vkCalls = (runCalls env w pre).vkCalls ∧
      step env (runCalls env w pre) c = runCalls env w pre) ∧
    (∀ calls : List Call,
      (runCalls env w calls).vkCalls.length - w.vkCalls.length ≤
        ((calls.map (fun c => env.affecting c.state)).dedup).length ∧
      (runCalls env w calls).vkCalls.length =
        w.vkCalls.length + ((calls.map (fun c => env.affecting c.state)).dedup).length) := by
  have hk0 : keys env w = [] := by unfold keys; rw [hfresh]; rfl
  constructor
  · intro pre c0 c hc0 hcomp
    have hmem : env.affecting c.state ∈ keys env (runCalls env w pre) := by
      rw [(keys_runCalls env pre w).1, mem_foldl_addKey]
      right
      simp only [compatible, decide_eq_true_eq] at hcomp
      rw [← hcomp]
      exact List.mem_map_of_mem _ hc0
    have := step_hit env _ c hmem
    exact ⟨by rw [this], this⟩
  · intro calls
    obtain ⟨h1, h2⟩ := keys_runCalls env calls w
    rw [h1, hk0, length_foldl_addKey_nil] at h2
    simp only [List.length_nil, Nat.add_zero] at h2
    omega

/-- Three calls on a fresh object: the third repeats the pipeline-affecting
bits of the first and compiles nothing; two compiles are made in all. -/
theorem at_most_one_compile_per_state_witness :
    (step exampleEnv (runCalls exampleEnv exampleWorld
        [Call.getPipelineHandle (exampleState 1), Call.compilePipeline (exampleState 2)])
      (Call.getPipelineHandle (exampleState 5))).vkCalls =
      (runCalls exampleEnv exampleWorld
        [Call.getPipelineHandle (exampleState 1), Call.compilePipeline (exampleState 2)]).vkCalls ∧
    (runCalls exampleEnv exampleWorld
      [Call.getPipelineHandle (exampleState 1), Call.compilePipeline (exampleState 2),
       Call.getPipelineHandle (exampleState 5)]).vkCalls.length = 0 + 2 :=
  ⟨((at_most_one_compile_per_state exampleEnv exampleWorld rfl).1
      [Call.getPipelineHandle (exampleState 1), Call.compilePipeline (exampleState 2)]
      (Call.getPipelineHandle (exampleState 1)) (Call.getPipelineHandle (exampleState 5))
      (by decide) (by decide)).1,
   ((at_most_one_compile_per_state exampleEnv exampleWorld rfl).2
      [Call.getPipelineHandle (exampleState 1), Call.compilePipeline (exampleState 2),
       Call.getPipelineHandle (exampleState 5)]).2⟩

/-- Looking a state up right after it was recorded at the end of a collection
that held no compatible instance. -/
theorem findInstance_after_append (env : DxvkComputePipelineEnv κ δ)
    (w w1 : DxvkComputePipelineWorld δ) (state : DxvkComputePipelineStateInfo)
    (h : VkPipeline) (hnone : findInstance env w state = none)
    (hw1 : w1.m_pipelines = w.m_pipelines ++ [⟨state, h⟩]) :
    findInstance env w1 state = some ⟨state, h⟩ := by
  unfold findInstance at hnone ⊢
  rw [hw1, List.find?_append, hnone]
  simp [isCompatible, compatible]

/-- C7: when the instance collection holds an instance compatible with the
state vector, `getPipelineHandle` returns the handle of the first such instance
in insertion order and leaves the whole world as it was: no driver call, the
same instance collection, the same compiled-pipeline counter. -/
theorem cache_hit_returns_first (env : DxvkComputePipelineEnv κ δ)
    (w : DxvkComputePipelineWorld δ) (state : DxvkComputePipelineStateInfo)
    (h : ∃ inst ∈ w.m_pipelines, isCompatible env inst state = true) :
    ∃ (before : List DxvkComputePipelineInstance) (inst : DxvkComputePipelineInstance)
        (after : List DxvkComputePipelineInstance),
      w.m_pipelines = before ++ inst :: after ∧
      (∀ i ∈ before, isCompatible env i state = false) ∧
      isCompatible env inst state = true ∧
      getPipelineHandle env w state = (inst.pipeline, w) ∧
      (getPipelineHandle env w state).2.vkCalls = w.vkCalls ∧
      (getPipelineHandle env w state).2.m_pipelines = w.m_pipelines ∧
      (getPipelineHandle env w state).2.m_numComputePipelines = w.m_numComputePipelines := by
  obtain ⟨i0, hi0, hc0⟩ := h
  have hsome : ∃ inst, findInstance env w state = some inst := by
    apply findInstance_isSome_of_mem
    unfold keys
    simp only [isCompatible, compatible, decide_eq_true_eq] at hc0
    rw [← hc0]
    exact List.mem_map_of_mem _ hi0
  obtain ⟨inst, hf⟩ := hsome
  have hf2 := hf
  unfold findInstance at hf2
  rw [List.find?_eq_some] at hf2
  obtain ⟨hp, before, after, hsplit, hbefore⟩ := hf2
  refine ⟨before, inst, after, hsplit, ?_, hp, ?_, ?_, ?_, ?_⟩
  · intro i hi
    have := hbefore i hi
    simpa using this
  all_goals simp [getPipelineHandle, hf]

/-- A hit on the second of two recorded instances, the first being
incompatible. -/
theorem cache_hit_returns_first_witness :
    ∃ (before : List DxvkComputePipelineInstance) (inst : DxvkComputePipelineInstance)
        (after : List DxvkComputePipelineInstance),
      ({ exampleWorld with m_pipelines := [⟨exampleState 1, 100⟩, ⟨exampleState 2, 102⟩,
          ⟨exampleState 6, 104⟩] } : DxvkComputePipelineWorld Nat).m_pipelines =
        before ++ inst :: after ∧
      (∀ i ∈ before, isCompatible exampleEnv i (exampleState 10) = false) ∧
      isCompatible exampleEnv inst (exampleState 10) = true ∧
      getPipelineHandle exampleEnv
        { exampleWorld with m_pipelines := [⟨exampleState 1, 100⟩, ⟨exampleState 2, 102⟩,
          ⟨exampleState 6, 104⟩] } (exampleState 10) =
        (inst.pipeline, { exampleWorld with m_pipelines := [⟨exampleState 1, 100⟩,
          ⟨exampleState 2, 102⟩, ⟨exampleState 6, 104⟩] }) ∧
      (getPipelineHandle exampleEnv
        { exampleWorld with m_pipelines := [⟨exampleState 1, 100⟩, ⟨exampleState 2, 102⟩,
          ⟨exampleState 6, 104⟩] } (exampleState 10)).2.vkCalls = exampleWorld.vkCalls ∧
      (getPipelineHandle exampleEnv
        { exampleWorld with m_pipelines := [⟨exampleState 1, 100⟩, ⟨exampleState 2, 102⟩,
          ⟨exampleState 6, 104⟩] } (exampleState 10)).2.m_pipelines =
        [⟨exampleState 1, 100⟩, ⟨exampleState 2, 102⟩, ⟨exampleState 6, 104⟩] ∧
      (getPipelineHandle exampleEnv
        { exampleWorld with m_pipelines := [⟨exampleState 1, 100⟩, ⟨exampleState 2, 102⟩,
          ⟨exampleState 6, 104⟩] } (exampleState 10)).2.m_numComputePipelines =
        exampleWorld.m_numComputePipelines :=
  cache_hit_returns_first exampleEnv
    { exampleWorld with m_pipelines := [⟨exampleState 1, 100⟩, ⟨exampleState 2, 102⟩,
      ⟨exampleState 6, 104⟩] } (exampleState 10)
    ⟨⟨exampleState 2, 102⟩, by decide, by decide⟩

/-- C8: when no recorded instance is compatible with the state vector and the
driver does not answer `VK_SUCCESS`, `getPipelineHandle` returns
`VK_NULL_HANDLE`; it returns as an ordinary call (the embedded function is
total). -/
theorem failed_compile_returns_null (env : DxvkComputePipelineEnv κ δ)
    (w : DxvkComputePipelineWorld δ) (state : DxvkComputePipelineStateInfo)
    (hnone : ∀ inst ∈ w.m_pipelines, isCompatible env inst state = false)
    (hfail : (env.vkCreateComputePipelines w.driver (pipelineCreateInfo env state)).1
      ≠ VK_SUCCESS) :
    (getPipelineHandle env w state).1 = VK_NULL_HANDLE := by
  have hf : findInstance env w state = none := by
    unfold findInstance
    rw [List.find?_eq_none]
    intro x hx
    simp [hnone x hx]
  simp only [getPipelineHandle, hf, createInstance_eq, createPipeline_handle, hfail,
    ne_eq, not_false_eq_true, if_true, DxvkComputePipelineInstance.pipeline]

/-- A failing compile on a fresh object. -/
theorem failed_compile_returns_null_witness :
    (getPipelineHandle exampleEnv exampleFailingWorld (exampleState 1)).1 = VK_NULL_HANDLE :=
  failed_compile_returns_null exampleEnv exampleFailingWorld (exampleState 1)
    (by decide) (by decide)

/-- C9 (amended): when no recorded instance is compatible with the state
vector and the driver does not answer `VK_SUCCESS`, both `getPipelineHandle`
and `compilePipeline` append an instance holding the state vector and
`VK_NULL_HANDLE` and increment the counter; a subsequent `getPipelineHandle`
of the same state finds that instance, returns `VK_NULL_HANDLE` and hands
nothing to the driver. -/
theorem failed_compile_is_recorded (env : DxvkComputePipelineEnv κ δ)
    (w : DxvkComputePipelineWorld δ) (state : DxvkComputePipelineStateInfo)
    (hnone : ∀ inst ∈ w.m_pipelines, isCompatible env inst state = false)
    (hfail : (env.vkCreateComputePipelines w.driver (pipelineCreateInfo env state)).1
      ≠ VK_SUCCESS) :
    (getPipelineHandle env w state).2.m_pipelines =
      w.m_pipelines ++ [⟨state, VK_NULL_HANDLE⟩] ∧
    (compilePipeline env w state).m_pipelines =
      w.m_pipelines ++ [⟨state, VK_NULL_HANDLE⟩] ∧
    (getPipelineHandle env w state).2.m_numComputePipelines = w.m_numComputePipelines + 1 ∧
    (compilePipeline env w state).m_numComputePipelines = w.m_numComputePipelines + 1 ∧
    getPipelineHandle env (getPipelineHandle env w state).2 state =
      (VK_NULL_HANDLE, (getPipelineHandle env w state).2) ∧
    getPipelineHandle env (compilePipeline env w state) state =
      (VK_NULL_HANDLE, compilePipeline env w state) := by
  have hf : findInstance env w state = none := by
    unfold findInstance
    rw [List.find?_eq_none]
    intro x hx
    simp [hnone x hx]
  have hh : (createPipeline env w state).1 = VK_NULL_HANDLE := by
    rw [createPipeline_handle]; simp [hfail]
  have hk : env.affecting (Call.getPipelineHandle state).state ∉ keys env w :=
    (findInstance_eq_none_iff env w state).1 hf
  obtain ⟨g1, _, g3⟩ := step_miss env w (Call.getPipelineHandle state) hk
  obtain ⟨c1, _, c3⟩ := step_miss env w (Call.compilePipeline state) hk
  simp only [step, Call.state, hh] at g1 g3 c1 c3
  have fg := findInstance_after_append env w _ state VK_NULL_HANDLE hf g1
  have fc := findInstance_after_append env w _ state VK_NULL_HANDLE hf c1
  refine ⟨g1, c1, g3, c3, ?_, ?_⟩
  · generalize (getPipelineHandle env w state).2 = w1 at fg
    simp only [getPipelineHandle, fg, DxvkComputePipelineInstance.pipeline]
  · generalize compilePipeline env w state = w1 at fc
    simp only [getPipelineHandle, fc, DxvkComputePipelineInstance.pipeline]

/-- The recorded failure on a fresh object whose first compile fails. -/
theorem failed_compile_is_recorded_witness :
    (getPipelineHandle exampleEnv exampleFailingWorld (exampleState 1)).2.m_pipelines =
      exampleFailingWorld.m_pipelines ++ [⟨exampleState 1, VK_NULL_HANDLE⟩] ∧
    (compilePipeline exampleEnv exampleFailingWorld (exampleState 1)).m_pipelines =
      exampleFailingWorld.m_pipelines ++ [⟨exampleState 1, VK_NULL_HANDLE⟩] ∧
    (getPipelineHandle exampleEnv exampleFailingWorld (exampleState 1)).2.m_numComputePipelines =
      exampleFailingWorld.m_numComputePipelines + 1 ∧
    (compilePipeline exampleEnv exampleFailingWorld (exampleState 1)).m_numComputePipelines =
      exampleFailingWorld.m_numComputePipelines + 1 ∧
    getPipelineHandle exampleEnv
        (getPipelineHandle exampleEnv exampleFailingWorld (exampleState 1)).2 (exampleState 1) =
      (VK_NULL_HANDLE, (getPipelineHandle exampleEnv exampleFailingWorld (exampleState 1)).2) ∧
    getPipelineHandle exampleEnv
        (compilePipeline exampleEnv exampleFailingWorld (exampleState 1)) (exampleState 1) =
      (VK_NULL_HANDLE, compilePipeline exampleEnv exampleFailingWorld (exampleState 1)) :=
  failed_compile_is_recorded exampleEnv exampleFailingWorld (exampleState 1)
    (by decide) (by decide)

/-- C9 as stated fails: on a fresh object whose first compile fails, the
collection of instances after `getPipelineHandle` (and after
`compilePipeline`) is not the collection before it, and the next
`getPipelineHandle` of the same state makes no driver call although the driver
would now succeed. -/
theorem failed_compile_not_recorded_counterexample :
    exampleFailingWorld.m_pipelines = [] ∧
    (exampleEnv.vkCreateComputePipelines exampleFailingWorld.driver
      (pipelineCreateInfo exampleEnv (exampleState 1))).1 ≠ VK_SUCCESS ∧
    (getPipelineHandle exampleEnv exampleFailingWorld (exampleState 1)).2.m_pipelines ≠
      exampleFailingWorld.m_pipelines ∧
    (compilePipeline exampleEnv exampleFailingWorld (exampleState 1)).m_pipelines ≠
      exampleFailingWorld.m_pipelines ∧
    (getPipelineHandle exampleEnv
      (getPipelineHandle exampleEnv exampleFailingWorld (exampleState 1)).2
      (exampleState 1)).2.vkCalls =
      (getPipelineHandle exampleEnv exampleFailingWorld (exampleState 1)).2.vkCalls ∧
    (exampleEnv.vkCreateComputePipelines
      (getPipelineHandle exampleEnv exampleFailingWorld (exampleState 1)).2.driver
      (pipelineCreateInfo exampleEnv (exampleState 1))).1 = VK_SUCCESS := by
  decide

/-- C10: `compilePipeline(S)` leaves an instance compatible with `S` in the
collection, the one it found or the one it created; a following
`getPipelineHandle(S)` returns the handle stored in that instance and leaves
the world as it was (no driver call); and a second `compilePipeline(S)` leaves
the world, hence the instance collection, as the first left it. -/
theorem prewarm_then_fetch (env : DxvkComputePipelineEnv κ δ)
    (w : DxvkComputePipelineWorld δ) (state : DxvkComputePipelineStateInfo) :
    ∃ inst : DxvkComputePipelineInstance,
      (findInstance env w state = some inst ∨
        (findInstance env w state = none ∧
          inst = ⟨state, (createPipeline env w state).1⟩ ∧
          (compilePipeline env w state).m_pipelines = w.m_pipelines ++ [inst])) ∧
      findInstance env (compilePipeline env w state) state = some inst ∧
      getPipelineHandle env (compilePipeline env w state) state =
        (inst.m_pipeline, compilePipeline env w state) ∧
      (getPipelineHandle env (compilePipeline env w state) state).2.vkCalls =
        (compilePipeline env w state).vkCalls ∧
      compilePipeline env (compilePipeline env w state) state = compilePipeline env w state ∧
      (compilePipeline env (compilePipeline env w state) state).m_pipelines =
        (compilePipeline env w state).m_pipelines := by
  cases hf : findInstance env w state with
  | some inst =>
    have hc : compilePipeline env w state = w := by simp [compilePipeline, hf]
    refine ⟨inst, Or.inl rfl, ?_, ?_, ?_, ?_, ?_⟩
    · rw [hc]; exact hf
    · rw [hc]; simp [getPipelineHandle, hf, DxvkComputePipelineInstance.pipeline]
    · rw [hc]; simp [getPipelineHandle, hf]
    · rw [hc]; exact hc
    · rw [hc, hc]
  | none =>
    have hk : env.affecting (Call.compilePipeline state).state ∉ keys env w :=
      (findInstance_eq_none_iff env w state).1 hf
    obtain ⟨c1, _, _⟩ := step_miss env w (Call.compilePipeline state) hk
    simp only [step, Call.state] at c1
    have fc := findInstance_after_append env w _ state _ hf c1
    have hc2 : compilePipeline env (compilePipeline env w state) state =
        compilePipeline env w state := by
      generalize compilePipeline env w state = w1 at fc
      simp [compilePipeline, fc]
    refine ⟨⟨state, (createPipeline env w state).1⟩, Or.inr ⟨rfl, rfl, c1⟩, fc, ?_, ?_, hc2, ?_⟩
    · generalize compilePipeline env w state = w1 at fc
      simp only [getPipelineHandle, fc, DxvkComputePipelineInstance.pipeline]
    · generalize compilePipeline env w state = w1 at fc
      simp only [getPipelineHandle, fc]
    · rw [hc2]

end DxvkComputePipeline

/-! ## Dispatch of `processInstruction` -/

namespace DxbcAnalyzer

/-- C15: an instruction whose class is none of Atomic, TextureSample,
TextureQueryLod, TextureGather, VectorDeriv, ControlFlow, TypedUavLoad, and a
ControlFlow instruction whose opcode is not Discard, make `processInstruction`
return the record it was given, whatever the operands of the instruction are. -/
theorem unrecognized_instruction_ignored :
    (∀ (a : DxbcAnalysisInfo) (ins : DxbcShaderInstruction),
      ins.opClass ≠ DxbcInstClass.Atomic → ins.opClass ≠ DxbcInstClass.TextureSample →
      ins.opClass ≠ DxbcInstClass.TextureQueryLod → ins.opClass ≠ DxbcInstClass.TextureGather →
      ins.opClass ≠ DxbcInstClass.VectorDeriv → ins.opClass ≠ DxbcInstClass.ControlFlow →
      ins.opClass ≠ DxbcInstClass.TypedUavLoad →
      processInstruction a ins = some a) ∧
    (∀ (a : DxbcAnalysisInfo) (ins : DxbcShaderInstruction),
      ins.opClass = DxbcInstClass.ControlFlow → ins.op ≠ DxbcOpcode.Discard →
      processInstruction a ins = some a) := by
  constructor
  · intro a ins h1 h2 h3 h4 h5 h6 h7
    unfold processInstruction
    cases hc : ins.opClass with
    | Atomic => exact absurd hc h1
    | TextureSample => exact absurd hc h2
    | TextureQueryLod => exact absurd hc h3
    | TextureGather => exact absurd hc h4
    | VectorDeriv => exact absurd hc h5
    | ControlFlow => exact absurd hc h6
    | TypedUavLoad => exact absurd hc h7
    | Other tag => rfl
  · intro a ins hc hop
    unfold processInstruction
    simp only [hc, hop, if_false]

/-- An instruction of an unlisted class without any operand, and a control-flow
instruction that is not a discard, on a record with flags set. -/
theorem unrecognized_instruction_ignored_witness :
    processInstruction exampleFlagged
      { op := DxbcOpcode.Gather4Po, opClass := DxbcInstClass.Other 42, dstCount := 0,
        dst := [], src := [] } = some exampleFlagged ∧
    processInstruction exampleFlagged
      { op := DxbcOpcode.Other 3, opClass := DxbcInstClass.ControlFlow, dstCount := 7,
        dst := [], src := [] } = some exampleFlagged :=
  ⟨unrecognized_instruction_ignored.1 exampleFlagged _
      (by decide) (by decide) (by decide) (by decide) (by decide) (by decide) (by decide),
   unrecognized_instruction_ignored.2 exampleFlagged _ (by decide) (by decide)⟩

/-- C14: for an Atomic instruction with at least one destination operand,
`processInstruction` looks at the last destination operand `d` only: when `d`
is an unordered-access view whose slot is inside `uavInfos`, the result is the
input record with `accessAtomicOp` of that slot set and nothing else changed;
when `d` is of any other type the record is returned unchanged; and two Atomic
instructions with the same last destination operand give the same result. -/
theorem atomic_marks_last_destination (a : DxbcAnalysisInfo)
    (ins : DxbcShaderInstruction) (d : DxbcRegister)
    (hc : ins.opClass = DxbcInstClass.Atomic)
    (h1 : 1 ≤ ins.dstCount) (h2 : ins.dstCount < 2 ^ 32)
    (hd : ins.dst[ins.dstCount - 1]? = some d) :
    (d.type = DxbcOperandType.UnorderedAccessView →
      ∀ u : DxbcUavInfo, a.uavInfos[toUInt32 d.idx0offset]? = some u →
        processInstruction a ins =
          some { a with uavInfos :=
            a.uavInfos.set (toUInt32 d.idx0offset) { u with accessAtomicOp := true } }) ∧
    (d.type ≠ DxbcOperandType.UnorderedAccessView → processInstruction a ins = some a) ∧
    (∀ ins2 : DxbcShaderInstruction, ins2.opClass = DxbcInstClass.Atomic →
      1 ≤ ins2.dstCount → ins2.dstCount < 2 ^ 32 →
      ins2.dst[ins2.dstCount - 1]? = some d →
      processInstruction a ins2 = processInstruction a ins) := by
  have key : ∀ i : DxbcShaderInstruction, i.opClass = DxbcInstClass.Atomic →
      1 ≤ i.dstCount → i.dstCount < 2 ^ 32 → i.dst[i.dstCount - 1]? = some d →
      processInstruction a i =
        if d.type = DxbcOperandType.UnorderedAccessView then
          match a.uavInfos[toUInt32 d.idx0offset]? with
          | none => none
          | some u =>
            some { a with uavInfos :=
              a.uavInfos.set (toUInt32 d.idx0offset) { u with accessAtomicOp := true } }
        else some a := by
    intro i hi g1 g2 gd
    have hidx : toUInt32 (i.dstCount + (2 ^ 32 - 1)) = i.dstCount - 1 := by
      unfold toUInt32; omega
    unfold processInstruction
    simp only [hi, hidx, gd]
  refine ⟨?_, ?_, ?_⟩
  · intro ht u hu
    rw [key ins hc h1 h2 hd]
    simp only [ht, if_true, hu]
  · intro ht
    rw [key ins hc h1 h2 hd]
    simp only [ht, if_false]
  · intro ins2 hc2 g1 g2 gd
    rw [key ins hc h1 h2 hd, key ins2 hc2 g1 g2 gd]

/-- An atomic operation on UAV slot 1 of a record whose slot 0 is flagged: slot
1 gets `accessAtomicOp`, and a second destination operand in front of the last
one changes nothing. -/
theorem atomic_marks_last_destination_witness :
    processInstruction exampleFlagged (exampleAtomic 1) =
      some { exampleFlagged with uavInfos := [⟨true, true⟩, ⟨false, true⟩] } ∧
    processInstruction exampleFlagged
      { op := DxbcOpcode.Other 9, opClass := DxbcInstClass.Atomic, dstCount := 2,
        dst := [⟨DxbcOperandType.UnorderedAccessView, 0⟩,
                ⟨DxbcOperandType.UnorderedAccessView, 1⟩],
        src := [] } =
      processInstruction exampleFlagged (exampleAtomic 1) :=
  ⟨(atomic_marks_last_destination exampleFlagged (exampleAtomic 1)
      ⟨DxbcOperandType.UnorderedAccessView, 1⟩ (by decide) (by decide) (by decide)
      (by decide)).1 rfl {} (by decide),
   (atomic_marks_last_destination exampleFlagged (exampleAtomic 1)
      ⟨DxbcOperandType.UnorderedAccessView, 1⟩ (by decide) (by decide) (by decide)
      (by decide)).2.2 _ (by decide) (by decide) (by decide) (by decide)⟩

/-- C13: for an instruction of class TextureSample, TextureQueryLod or
TextureGather, `processInstruction` is the pairing step
`handleTextureSamplerPair` on the operands `src[1]`, `src[2]`, or on `src[2]`,
`src[3]` when the opcode is Gather4Po or Gather4PoC, run on the record whose
`usesDerivatives` has been set for TextureSample and TextureQueryLod; in the
result `usesDerivatives` is true for those two classes and the input value for
TextureGather, and `usesKill`, `uavInfos` and the clip/cull counts are those of
the input; on a record reached from the constructor and with both slots inside
the arrays the result exists and is the step of the specification. -/
theorem texture_instruction_runs_pairing (a : DxbcAnalysisInfo)
    (ins : DxbcShaderInstruction) (t s : DxbcRegister)
    (hc : ins.opClass = DxbcInstClass.TextureSample ∨
      ins.opClass = DxbcInstClass.TextureQueryLod ∨
      ins.opClass = DxbcInstClass.TextureGather)
    (hops : (ins.op ≠ DxbcOpcode.Gather4Po ∧ ins.op ≠ DxbcOpcode.Gather4PoC ∧
        ins.src[1]? = some t ∧ ins.src[2]? = some s) ∨
      ((ins.op = DxbcOpcode.Gather4Po ∨ ins.op = DxbcOpcode.Gather4PoC) ∧
        ins.src[2]? = some t ∧ ins.src[3]? = some s)) :
    processInstruction a ins =
      handleTextureSamplerPair
        { a with usesDerivatives := a.usesDerivatives || setsDerivatives ins } t s ∧
    (∀ a1 : DxbcAnalysisInfo, processInstruction a ins = some a1 →
      (ins.opClass = DxbcInstClass.TextureSample ∨
        ins.opClass = DxbcInstClass.TextureQueryLod → a1.usesDerivatives = true) ∧
      (ins.opClass = DxbcInstClass.TextureGather →
        a1.usesDerivatives = a.usesDerivatives) ∧
      a1.usesKill = a.usesKill ∧ a1.uavInfos = a.uavInfos ∧
      a1.clipCullIn = a.clipCullIn ∧ a1.clipCullOut = a.clipCullOut) ∧
    (∀ (isgn osgn psgn : DxbcIsgnRef) (analysis : DxbcAnalysisInfo)
        (prog : List DxbcShaderInstruction),
      run (construct isgn osgn psgn analysis) prog = some a →
      inBounds a.textureSamplerIds (toInt32 t.idx0offset) = true →
      inBounds a.samplerTextureIds (toInt32 s.idx0offset) = true →
      processInstruction a ins =
        some (specPairing
          { a with usesDerivatives := a.usesDerivatives || setsDerivatives ins }
          (toInt32 t.idx0offset) (toInt32 s.idx0offset))) := by
  have hsrc : ∃ k : Nat,
      (if ins.op = DxbcOpcode.Gather4Po ∨ ins.op = DxbcOpcode.Gather4PoC then 1 else 0) = k ∧
      ins.src[1 + k]? = some t ∧ ins.src[2 + k]? = some s := by
    rcases hops with ⟨h1, h2, h3, h4⟩ | ⟨h1, h2, h3⟩
    · exact ⟨0, by simp [h1, h2], h3, h4⟩
    · exact ⟨1, by simp [h1], h2, h3⟩
  obtain ⟨k, hk, hx, hy⟩ := hsrc
  have hg : ∀ a0 : DxbcAnalysisInfo,
      gatherCase a0 ins = handleTextureSamplerPair a0 t s := by
    intro a0
    simp only [gatherCase, hk, hx, hy]
  have heq : processInstruction a ins =
      handleTextureSamplerPair
        { a with usesDerivatives := a.usesDerivatives || setsDerivatives ins } t s := by
    unfold processInstruction
    rcases hc with hc | hc | hc
    · simp only [hc, hg]
      simp [setsDerivatives, hc]
    · simp only [hc, hg]
      simp [setsDerivatives, hc]
    · simp only [hc, hg]
      simp [setsDerivatives, hc]
  refine ⟨heq, ?_, ?_⟩
  · intro a1 h1
    rw [heq] at h1
    obtain ⟨f1, f2, f3, f4, f5⟩ := handle_frame _ a1 t s h1
    simp only at f1 f2 f3 f4 f5
    refine ⟨?_, ?_, f5, f1, f2, f3⟩
    · intro hcl
      rw [f4]
      simp [setsDerivatives, hcl]
    · intro hcl
      rw [f4]
      simp [setsDerivatives, hcl]
  · intro isgn osgn psgn analysis prog hreach hT hS
    have hinv := run_inv prog _ a (construct_inv isgn osgn psgn analysis) hreach
    rw [heq]
    exact handle_eq_specPairing
      { a with usesDerivatives := a.usesDerivatives || setsDerivatives ins } t s hinv hT hS

/-- A projected-offset gather reading texture 1 and sampler 0 from `src[2]` and
`src[3]`, on the record reached by one sample of (0, 0). -/
theorem texture_instruction_runs_pairing_witness :
    processInstruction examplePaired
      { op := DxbcOpcode.Gather4PoC, opClass := DxbcInstClass.TextureGather, dstCount := 1,
        dst := [⟨DxbcOperandType.Other 0, 0⟩],
        src := [⟨DxbcOperandType.Other 0, 0⟩, ⟨DxbcOperandType.Other 0, 9⟩,
                ⟨DxbcOperandType.Other 1, 1⟩, ⟨DxbcOperandType.Other 2, 0⟩] } =
      some (specPairing
        { examplePaired with usesDerivatives := examplePaired.usesDerivatives || false }
        (toInt32 1) (toInt32 0)) :=
  (texture_instruction_runs_pairing examplePaired
      { op := DxbcOpcode.Gather4PoC, opClass := DxbcInstClass.TextureGather, dstCount := 1,
        dst := [⟨DxbcOperandType.Other 0, 0⟩],
        src := [⟨DxbcOperandType.Other 0, 0⟩, ⟨DxbcOperandType.Other 0, 9⟩,
                ⟨DxbcOperandType.Other 1, 1⟩, ⟨DxbcOperandType.Other 2, 0⟩] }
      ⟨DxbcOperandType.Other 1, 1⟩ ⟨DxbcOperandType.Other 2, 0⟩
      (by decide) (by decide)).2.2 none none none exampleRecord
    [exampleTexIns DxbcInstClass.TextureSample 0 0] (by decide) (by decide) (by decide)

/-! ## Symmetry of the pairing arrays -/

/-- C19: in every record reached from the constructor by `processInstruction`
calls, `textureSamplerIds[T] = S` with `S ≥ 0` holds exactly when
`samplerTextureIds[S] = T` with `T ≥ 0`; the non-negative entries of each array
are injective; and so, in the poison branch of `handleTextureSamplerPair`, the
read of `samplerTextureIds[S]` that follows the write to
`samplerTextureIds[textureSamplerIds[T]]` still yields the pre-step value `b`,
and the pairing step poisons `textureSamplerIds[b]` when `b ≥ 0`. -/
theorem pairing_arrays_mirror (isgn osgn psgn : DxbcIsgnRef) (analysis : DxbcAnalysisInfo)
    (prog : List DxbcShaderInstruction) (r : DxbcAnalysisInfo)
    (hreach : run (construct isgn osgn psgn analysis) prog = some r) :
    (∀ T S : Int,
      (arrGet r.textureSamplerIds T = some S ∧ 0 ≤ S) ↔
      (arrGet r.samplerTextureIds S = some T ∧ 0 ≤ T)) ∧
    (∀ T1 T2 S : Int, 0 ≤ S → arrGet r.textureSamplerIds T1 = some S →
      arrGet r.textureSamplerIds T2 = some S → T1 = T2) ∧
    (∀ S1 S2 T : Int, 0 ≤ T → arrGet r.samplerTextureIds S1 = some T →
      arrGet r.samplerTextureIds S2 = some T → S1 = S2) ∧
    (∀ T S a b : Int, arrGet r.textureSamplerIds T = some a →
      arrGet r.samplerTextureIds S = some b →
      ¬ (a = -1 ∧ b = -1) → (a ≠ S ∨ b ≠ T) →
      arrGet (if a ≥ 0 then arrPut r.samplerTextureIds a (-2) else r.samplerTextureIds) S
        = some b) ∧
    (∀ (texture sampler : DxbcRegister) (a b : Int),
      arrGet r.textureSamplerIds (toInt32 texture.idx0offset) = some a →
      arrGet r.samplerTextureIds (toInt32 sampler.idx0offset) = some b →
      ¬ (a = -1 ∧ b = -1) →
      (a ≠ toInt32 sampler.idx0offset ∨ b ≠ toInt32 texture.idx0offset) →
      0 ≤ b →
      ∃ r1 : DxbcAnalysisInfo, handleTextureSamplerPair r texture sampler = some r1 ∧
        arrGet r1.textureSamplerIds b = some (-2)) := by
  have hinv := run_inv prog _ r (construct_inv isgn osgn psgn analysis) hreach
  refine ⟨?_, ?_, ?_, ?_, ?_⟩
  · intro T S
    constructor
    · rintro ⟨h, hS⟩
      exact ⟨hinv.1 T S h hS, ((inBounds_iff _ _).1 (inBounds_of_arrGet h)).1⟩
    · rintro ⟨h, hT⟩
      exact ⟨hinv.2 S T h hT, ((inBounds_iff _ _).1 (inBounds_of_arrGet h)).1⟩
  · intro T1 T2 S hS h1 h2
    have e1 := hinv.1 T1 S h1 hS
    have e2 := hinv.1 T2 S h2 hS
    rw [e1] at e2
    exact Option.some.inj e2
  · intro S1 S2 T hT h1 h2
    have e1 := hinv.2 S1 T h1 hT
    have e2 := hinv.2 S2 T h2 hT
    rw [e1] at e2
    exact Option.some.inj e2
  · intro T S a b ha hb _ h2
    by_cases ha0 : a ≥ 0
    · simp only [ha0, if_true]
      rw [arrGet_arrPut]
      have hne : S ≠ a := by
        intro hSa
        have := hinv.1 T a ha ha0
        rw [← hSa, hb] at this
        rcases h2 with h | h
        · exact h hSa.symm
        · exact h (Option.some.inj this)
      simp [hne, hb]
    · simp only [ha0, if_false]
      exact hb
  · intro texture sampler a b ha hb h1 h2 hb0
    refine ⟨_, handle_eq_specPairing r texture sampler hinv (inBounds_of_arrGet ha)
      (inBounds_of_arrGet hb), ?_⟩
    rw [specPairing_poison r _ _ a b ha hb h1 h2]
    simp only
    apply arrGet_arrPut_poison
    have hin : inBounds r.textureSamplerIds b = true :=
      inBounds_of_arrGet (hinv.2 _ b hb hb0)
    have hge : b ≥ 0 := hb0
    simp only [hge, if_true]
    rw [arrGet_arrPut]
    simp [hin]

/-- The mirror property on the record reached by one sample of (0, 0): the
entries of texture 0 and sampler 0 point at each other. -/
theorem pairing_arrays_mirror_witness :
    (arrGet examplePaired.textureSamplerIds 0 = some 0 ∧ (0 : Int) ≤ 0) ↔
    (arrGet examplePaired.samplerTextureIds 0 = some 0 ∧ (0 : Int) ≤ 0) :=
  (pairing_arrays_mirror none none none exampleRecord
    [exampleTexIns DxbcInstClass.TextureSample 0 0] examplePaired (by decide)).1 0 0

end DxbcAnalyzer

/-! ## The pipeline-creation descriptor -/

namespace DxvkComputePipeline

variable {κ δ : Type}

/-- The stage descriptor `createPipeline` builds, field by field. -/
theorem pipelineCreateInfo_stage (env : DxvkComputePipelineEnv κ δ)
    (state : DxvkComputePipelineStateInfo) :
    (pipelineCreateInfo env state).stage.pNext =
      (if env.subgroupSizeControl = true
          ∧ env.shaderMinSubgroupSize > env.minSubgroupSize
          ∧ env.shaderMinSubgroupSize ≤ env.maxSubgroupSize
          ∧ (env.workgroupSize.width * env.workgroupSize.height % 2 ^ 32
              * env.workgroupSize.depth) % 2 ^ 32 ≤
            (env.shaderMinSubgroupSize * env.maxComputeWorkgroupSubgroups) % 2 ^ 32
        then some env.shaderMinSubgroupSize else none) ∧
    (pipelineCreateInfo env state).stage.flags =
      (if env.computeFullSubgroups = true ∧ env.shaderMinSubgroupSize ≠ 0
        then env.stageFlags ||| VK_PIPELINE_SHADER_STAGE_CREATE_REQUIRE_FULL_SUBGROUPS_BIT_EXT
        else env.stageFlags) ∧
    (pipelineCreateInfo env state).stage.pSpecializationInfo = buildSpecData env state := by
  unfold pipelineCreateInfo
  simp only
  refine ⟨?_, ?_, ?_⟩
  · split <;> split <;> simp_all
  · split <;> split <;> simp_all
  · split <;> split <;> rfl

/-- C16 (amended): `createPipeline` chains the fixed-subgroup-size request,
with `requiredSubgroupSize` the shader's `minSubgroupSize`, exactly when the
device reports `subgroupSizeControl`, the requested size is strictly greater
than the device's minimum and at most its maximum subgroup size, and the
32-bit product width * height * depth of the workgroup is at most the 32-bit
product of the size and `maxComputeWorkgroupSubgroups`; otherwise nothing is
chained. -/
theorem subgroup_size_request (env : DxvkComputePipelineEnv κ δ)
    (state : DxvkComputePipelineStateInfo) :
    ((pipelineCreateInfo env state).stage.pNext = some env.shaderMinSubgroupSize ↔
      (env.subgroupSizeControl = true
        ∧ env.minSubgroupSize < env.shaderMinSubgroupSize
        ∧ env.shaderMinSubgroupSize ≤ env.maxSubgroupSize
        ∧ (env.workgroupSize.width * env.workgroupSize.height % 2 ^ 32
            * env.workgroupSize.depth) % 2 ^ 32 ≤
          (env.shaderMinSubgroupSize * env.maxComputeWorkgroupSubgroups) % 2 ^ 32)) ∧
    ((pipelineCreateInfo env state).stage.pNext = none ↔
      ¬ (env.subgroupSizeControl = true
        ∧ env.minSubgroupSize < env.shaderMinSubgroupSize
        ∧ env.shaderMinSubgroupSize ≤ env.maxSubgroupSize
        ∧ (env.workgroupSize.width * env.workgroupSize.height % 2 ^ 32
            * env.workgroupSize.depth) % 2 ^ 32 ≤
          (env.shaderMinSubgroupSize * env.maxComputeWorkgroupSubgroups) % 2 ^ 32)) := by
  rw [(pipelineCreateInfo_stage env state).1]
  constructor
  · constructor
    · intro h
      split at h
      · rename_i hc; exact hc
      · exact absurd h (by simp)
    · intro h
      simp only [gt_iff_lt, h, and_self, if_true]
  · constructor
    · intro h hc
      simp only [gt_iff_lt, hc, and_self, if_true] at h
      exact absurd h (by simp)
    · intro h
      simp only [gt_iff_lt, h, if_false]

/-- C16 as stated fails: with the requested size equal to the device's minimum
subgroup size, inside the inclusive bounds and with the workgroup fitting, no
size request is chained. -/
theorem subgroup_size_request_at_minimum_counterexample :
    exampleEnvAtMin.subgroupSizeControl = true ∧
    exampleEnvAtMin.minSubgroupSize ≤ exampleEnvAtMin.shaderMinSubgroupSize ∧
    exampleEnvAtMin.shaderMinSubgroupSize ≤ exampleEnvAtMin.maxSubgroupSize ∧
    (exampleEnvAtMin.workgroupSize.width * exampleEnvAtMin.workgroupSize.height % 2 ^ 32
        * exampleEnvAtMin.workgroupSize.depth) % 2 ^ 32 ≤
      (exampleEnvAtMin.shaderMinSubgroupSize *
        exampleEnvAtMin.maxComputeWorkgroupSubgroups) % 2 ^ 32 ∧
    (pipelineCreateInfo exampleEnvAtMin (exampleState 1)).stage.pNext = none := by
  decide

/-- The size request on the example device: 32 lies strictly above the minimum
4 and below the maximum 64, and 8 * 8 * 1 invocations fit 32 * 16. -/
theorem subgroup_size_request_witness :
    (pipelineCreateInfo exampleEnv (exampleState 1)).stage.pNext =
      some exampleEnv.shaderMinSubgroupSize :=
  (subgroup_size_request exampleEnv (exampleState 1)).1.2 (by decide)

/-- C17 (amended): the stage flags `createPipeline` hands to the driver are the
flags of the shader module's stage info with the require-full-subgroups bit
added exactly when the device supports `computeFullSubgroups` and the requested
subgroup size is nonzero; this does not depend on whether the size request is
chained, so the bit is also set on a descriptor without the request. -/
theorem full_subgroups_flag (env : DxvkComputePipelineEnv κ δ)
    (state : DxvkComputePipelineStateInfo) :
    (env.computeFullSubgroups = true ∧ env.shaderMinSubgroupSize ≠ 0 →
      (pipelineCreateInfo env state).stage.flags =
        env.stageFlags ||| VK_PIPELINE_SHADER_STAGE_CREATE_REQUIRE_FULL_SUBGROUPS_BIT_EXT) ∧
    (¬ (env.computeFullSubgroups = true ∧ env.shaderMinSubgroupSize ≠ 0) →
      (pipelineCreateInfo env state).stage.flags = env.stageFlags) ∧
    (∀ b : Bool,
      (pipelineCreateInfo { env with subgroupSizeControl := b } state).stage.flags =
        (pipelineCreateInfo env state).stage.flags) := by
  refine ⟨?_, ?_, ?_⟩
  · intro h
    rw [(pipelineCreateInfo_stage env state).2.1]
    simp only [h, ne_eq, not_false_eq_true, and_self, if_true]
  · intro h
    rw [(pipelineCreateInfo_stage env state).2.1]
    simp only [h, if_false]
  · intro b
    rw [(pipelineCreateInfo_stage env state).2.1,
      (pipelineCreateInfo_stage { env with subgroupSizeControl := b } state).2.1]

/-- The flag on the example device, with and without subgroup size control. -/
theorem full_subgroups_flag_witness :
    (pipelineCreateInfo exampleEnv (exampleState 1)).stage.flags =
      exampleEnv.stageFlags ||| VK_PIPELINE_SHADER_STAGE_CREATE_REQUIRE_FULL_SUBGROUPS_BIT_EXT :=
  (full_subgroups_flag exampleEnv (exampleState 1)).1 (by decide)

/-- C17 as stated fails: on a device without subgroup size control that
supports full subgroups, the descriptor carries no size request and yet its
stage flags contain the require-full-subgroups bit. -/
theorem full_subgroups_flag_without_request_counterexample :
    (pipelineCreateInfo exampleEnvNoControl (exampleState 1)).stage.pNext = none ∧
    exampleEnvNoControl.stageFlags = 0 ∧
    (pipelineCreateInfo exampleEnvNoControl (exampleState 1)).stage.flags =
      VK_PIPELINE_SHADER_STAGE_CREATE_REQUIRE_FULL_SUBGROUPS_BIT_EXT ∧
    (pipelineCreateInfo exampleEnvNoControl (exampleState 1)).stage.flags &&&
      VK_PIPELINE_SHADER_STAGE_CREATE_REQUIRE_FULL_SUBGROUPS_BIT_EXT ≠ 0 := by
  decide

/-- A run of `set` calls appends one entry per call, in call order. -/
theorem foldl_specSet (l : List Nat) (f g : Nat → Nat) (d : Nat) :
    ∀ init : List (Nat × Nat),
      l.foldl (fun sd i => specSet sd (f i) (g i) d) init =
        init ++ l.map (fun i => (f i, g i)) := by
  induction l with
  | nil => intro init; simp
  | cons x xs ih =>
    intro init
    simp only [List.foldl_cons, List.map_cons]
    rw [ih]
    simp [specSet]

/-- C18: the specialization data of `createPipeline` is, in order, one entry
`(i, bsBindingMask.test(i))` for each binding index `i < bindingCount`, then
one entry `(getSpecId(i), sc.specConstants[i])` for each
`i < MaxNumSpecConstants`; it is what the stage descriptor carries; and two
state vectors that agree on the mask bits below `bindingCount` and on the
`specConstants` block give the same specialization data, whatever their mask
bits at or above `bindingCount`. -/
theorem specialization_data (env : DxvkComputePipelineEnv κ δ)
    (state state2 : DxvkComputePipelineStateInfo) :
    buildSpecData env state =
      (List.range env.bindingCount).map
        (fun i => (i, if state.bsBindingMask.testBit i then 1 else 0)) ++
      (List.range env.MaxNumSpecConstants).map
        (fun i => (env.getSpecId i, state.specConstants.getD i 0)) ∧
    (buildSpecData env state).length = env.bindingCount + env.MaxNumSpecConstants ∧
    (pipelineCreateInfo env state).stage.pSpecializationInfo = buildSpecData env state ∧
    ((∀ i, i < env.bindingCount →
        state.bsBindingMask.testBit i = state2.bsBindingMask.testBit i) →
      (∀ i, i < env.MaxNumSpecConstants →
        state.specConstants.getD i 0 = state2.specConstants.getD i 0) →
      buildSpecData env state = buildSpecData env state2 ∧
      (pipelineCreateInfo env state).stage.pSpecializationInfo =
        (pipelineCreateInfo env state2).stage.pSpecializationInfo) := by
  have hb : ∀ st : DxvkComputePipelineStateInfo, buildSpecData env st =
      (List.range env.bindingCount).map
        (fun i => (i, if st.bsBindingMask.testBit i then 1 else 0)) ++
      (List.range env.MaxNumSpecConstants).map
        (fun i => (env.getSpecId i, st.specConstants.getD i 0)) := by
    intro st
    unfold buildSpecData
    simp only
    rw [foldl_specSet (List.range env.bindingCount) (fun i => i)
      (fun i => if st.bsBindingMask.testBit i then 1 else 0) 1 []]
    rw [foldl_specSet (List.range env.MaxNumSpecConstants) env.getSpecId
      (fun i => st.specConstants.getD i 0) 0]
    simp
  refine ⟨hb state, ?_, (pipelineCreateInfo_stage env state).2.2, ?_⟩
  · rw [hb state]; simp
  · intro h1 h2
    have heq : buildSpecData env state = buildSpecData env state2 := by
      rw [hb state, hb state2]
      congr 1
      · apply List.map_congr_left
        intro i hi
        rw [List.mem_range] at hi
        rw [h1 i hi]
      · apply List.map_congr_left
        intro i hi
        rw [List.mem_range] at hi
        rw [h2 i hi]
    refine ⟨heq, ?_⟩
    rw [(pipelineCreateInfo_stage env state).2.2, (pipelineCreateInfo_stage env state2).2.2, heq]

/-- The binding masks `0b001` and `0b101` agree below the binding count 2 of
the example shader and give the same specialization data. -/
theorem specialization_data_witness :
    buildSpecData exampleEnv (exampleState 1) = buildSpecData exampleEnv (exampleState 5) ∧
    (pipelineCreateInfo exampleEnv (exampleState 1)).stage.pSpecializationInfo =
      (pipelineCreateInfo exampleEnv (exampleState 5)).stage.pSpecializationInfo :=
  (specialization_data exampleEnv (exampleState 1) (exampleState 5)).2.2.2
    (by decide) (by decide)

/-! ## Which instance a request resolves to -/

variable [DecidableEq κ]

/-- The element `find?` returns sits at the index `findIdx` returns. -/
theorem getElem?_findIdx_of_find? {α : Type} (p : α → Bool) :
    ∀ (l : List α) (x : α), l.find? p = some x → l[l.findIdx p]? = some x := by
  intro l
  induction l with
  | nil => intro x h; simp at h
  | cons y ys ih =>
    intro x h
    rw [List.findIdx_cons]
    by_cases hy : p y = true
    · simp only [List.find?_cons_of_pos _ hy, Option.some.injEq] at h
      subst h
      simp [hy]
    · simp only [List.find?_cons_of_neg _ hy] at h
      simp only [Bool.not_eq_true] at hy
      simp [hy, ih x h]

/-- When `find?` finds nothing, `findIdx` is the length of the list. -/
theorem findIdx_of_find?_none {α : Type} (p : α → Bool) (l : List α)
    (h : l.find? p = none) : l.findIdx p = l.length := by
  rw [List.find?_eq_none] at h
  apply List.findIdx_eq_length_of_false
  intro x hx
  simpa using h x hx

/-- The instance `getPipelineHandle` takes its handle from: it sits at
`resolvedIndex` in the collection the call leaves, and is compatible with the
requested state. -/
theorem getPipelineHandle_resolves (env : DxvkComputePipelineEnv κ δ)
    (w : DxvkComputePipelineWorld δ) (state : DxvkComputePipelineStateInfo) :
    ∃ inst : DxvkComputePipelineInstance,
      (getPipelineHandle env w state).2.m_pipelines[resolvedIndex env w state]? = some inst ∧
      isCompatible env inst state = true ∧
      (getPipelineHandle env w state).1 = inst.pipeline := by
  cases hf : findInstance env w state with
  | some inst =>
    refine ⟨inst, ?_, (findInstance_some_compatible env w state inst hf).2, ?_⟩
    · simp only [getPipelineHandle, hf, resolvedIndex]
      exact getElem?_findIdx_of_find? _ _ _ hf
    · simp only [getPipelineHandle, hf]
  | none =>
    have hk : env.affecting (Call.getPipelineHandle state).state ∉ keys env w :=
      (findInstance_eq_none_iff env w state).1 hf
    obtain ⟨g1, _, _⟩ := step_miss env w (Call.getPipelineHandle state) hk
    simp only [step, Call.state] at g1
    refine ⟨⟨state, (createPipeline env w state).1⟩, ?_, ?_, ?_⟩
    · rw [g1, resolvedIndex, findIdx_of_find?_none _ _ hf]
      simp
    · simp [isCompatible, compatible]
    · simp only [getPipelineHandle, hf, createInstance_eq]

/-- A call only ever appends to the instance collection. -/
theorem step_prefix (env : DxvkComputePipelineEnv κ δ) (w : DxvkComputePipelineWorld δ)
    (c : Call) :
    ∃ ext : List DxvkComputePipelineInstance,
      (step env w c).m_pipelines = w.m_pipelines ++ ext := by
  by_cases h : env.affecting c.state ∈ keys env w
  · exact ⟨[], by rw [step_hit env w c h]; simp⟩
  · exact ⟨_, (step_miss env w c h).1⟩

/-- A sequence of calls only ever appends to the instance collection. -/
theorem runCalls_prefix (env : DxvkComputePipelineEnv κ δ) (calls : List Call) :
    ∀ w : DxvkComputePipelineWorld δ,
      ∃ ext : List DxvkComputePipelineInstance,
        (runCalls env w calls).m_pipelines = w.m_pipelines ++ ext := by
  induction calls with
  | nil => intro w; exact ⟨[], by simp [runCalls]⟩
  | cons c cs ih =>
    intro w
    obtain ⟨e1, h1⟩ := step_prefix env w c
    obtain ⟨e2, h2⟩ := ih (step env w c)
    refine ⟨e1 ++ e2, ?_⟩
    simp only [runCalls, List.foldl_cons] at h2 ⊢
    rw [h2, h1, List.append_assoc]

/-- C11: on every pipeline object reached by a sequence of calls, the instance
whose handle `getPipelineHandle(S)` returns stores a state vector compatible
with `S`; for a state vector `S2` not compatible with `S`, no instance is
compatible with both, and a later `getPipelineHandle(S2)` resolves to another
position of the instance collection, the instance resolved for `S` staying
where it was. -/
theorem incompatible_states_never_alias (env : DxvkComputePipelineEnv κ δ)
    (w0 : DxvkComputePipelineWorld δ) (calls : List Call)
    (S : DxvkComputePipelineStateInfo) :
    (∃ inst : DxvkComputePipelineInstance,
      (getPipelineHandle env (runCalls env w0 calls) S).2.m_pipelines[
        resolvedIndex env (runCalls env w0 calls) S]? = some inst ∧
      isCompatible env inst S = true ∧
      (getPipelineHandle env (runCalls env w0 calls) S).1 = inst.pipeline) ∧
    (∀ (S2 : DxvkComputePipelineStateInfo) (mid : List Call),
      compatible env S S2 = false →
      (∀ inst : DxvkComputePipelineInstance,
        ¬ (isCompatible env inst S = true ∧ isCompatible env inst S2 = true)) ∧
      resolvedIndex env (runCalls env w0 calls) S ≠
        resolvedIndex env
          (runCalls env (getPipelineHandle env (runCalls env w0 calls) S).2 mid) S2 ∧
      (getPipelineHandle env
          (runCalls env (getPipelineHandle env (runCalls env w0 calls) S).2 mid)
          S2).2.m_pipelines[resolvedIndex env (runCalls env w0 calls) S]? =
        (getPipelineHandle env (runCalls env w0 calls) S).2.m_pipelines[
          resolvedIndex env (runCalls env w0 calls) S]?) := by
  generalize runCalls env w0 calls = w
  obtain ⟨inst, hget, hcomp, hhandle⟩ := getPipelineHandle_resolves env w S
  refine ⟨⟨inst, hget, hcomp, hhandle⟩, ?_⟩
  intro S2 mid hinc
  have hno : ∀ i : DxvkComputePipelineInstance,
      ¬ (isCompatible env i S = true ∧ isCompatible env i S2 = true) := by
    intro i hi
    simp only [isCompatible, compatible, decide_eq_true_eq, decide_eq_false_iff_not] at hi hinc
    exact hinc (hi.1.symm.trans hi.2)
  generalize hw1 : (getPipelineHandle env w S).2 = w1 at hget
  obtain ⟨e1, hp1⟩ := runCalls_prefix env mid w1
  generalize hw2 : runCalls env w1 mid = w2 at hp1
  obtain ⟨inst2, hget2, hcomp2, _⟩ := getPipelineHandle_resolves env w2 S2
  obtain ⟨e2, hp2⟩ := step_prefix env w2 (Call.getPipelineHandle S2)
  simp only [step] at hp2
  have hlt : resolvedIndex env w S < w1.m_pipelines.length := by
    rcases Nat.lt_or_ge (resolvedIndex env w S) w1.m_pipelines.length with h | h
    · exact h
    · rw [List.getElem?_eq_none h] at hget; exact absurd hget (by simp)
  have hstay : (getPipelineHandle env w2 S2).2.m_pipelines[resolvedIndex env w S]? =
      w1.m_pipelines[resolvedIndex env w S]? := by
    rw [hp2, hp1, List.append_assoc, List.getElem?_append_left hlt]
  refine ⟨hno, ?_, hstay⟩
  intro heq
  rw [← heq, hstay, hget] at hget2
  cases hget2
  exact hno inst ⟨hcomp, hcomp2⟩

/-- Two requests that differ in the low mask bits on a fresh object: the second
resolves to position 1, not to position 0 where the first was recorded. -/
theorem incompatible_states_never_alias_witness :
    resolvedIndex exampleEnv (runCalls exampleEnv exampleWorld []) (exampleState 1) ≠
      resolvedIndex exampleEnv
        (runCalls exampleEnv
          (getPipelineHandle exampleEnv (runCalls exampleEnv exampleWorld [])
            (exampleState 1)).2 []) (exampleState 2) :=
  ((incompatible_states_never_alias exampleEnv exampleWorld [] (exampleState 1)).2
    (exampleState 2) [] (by decide)).2.1

/-! ## Notification of the persisted cache -/

/-- C12 (amended): a `getPipelineHandle(S)` call that finds no compatible instance
writes to the persisted cache once, after `createInstance`: with a state cache
present the entry `(key, S)` with `key.cs` the shader's key is appended to the
calls it has received; a call that finds a compatible instance leaves the
world, hence the state cache, as it was; with a null state cache nothing is
notified, and the handle returned does not depend on the state cache. -/
theorem cache_notified_on_creation (env : DxvkComputePipelineEnv κ δ)
    (w : DxvkComputePipelineWorld δ) (S : DxvkComputePipelineStateInfo) :
    (findInstance env w S = none →
      (getPipelineHandle env w S).2 =
        writePipelineStateToCache env (createInstance env w S).2 S ∧
      ∀ cache, w.m_stateCache = some cache →
        (getPipelineHandle env w S).2.m_stateCache =
          some (cache ++ [({ cs := env.shaderKey }, S)])) ∧
    (∀ inst, findInstance env w S = some inst →
      (getPipelineHandle env w S).2 = w ∧
      (getPipelineHandle env w S).2.m_stateCache = w.m_stateCache) ∧
    (w.m_stateCache = none → (getPipelineHandle env w S).2.m_stateCache = none) ∧
    (∀ c, (getPipelineHandle env { w with m_stateCache := c } S).1 =
      (getPipelineHandle env w S).1) := by
  refine ⟨?_, ?_, ?_, ?_⟩
  · intro hf
    refine ⟨?_, ?_⟩
    · simp only [getPipelineHandle, hf, createInstance_eq]
    · intro cache hc
      simp only [getPipelineHandle, hf, createInstance_eq, writePipelineStateToCache, hc]
  · intro inst hf
    simp only [getPipelineHandle, hf, and_self]
  · intro hc
    cases hf : findInstance env w S with
    | some inst => simp only [getPipelineHandle, hf, hc]
    | none =>
      simp only [getPipelineHandle, hf, createInstance_eq, writePipelineStateToCache, hc]
  · intro c
    have hfind : findInstance env { w with m_stateCache := c } S = findInstance env w S := rfl
    cases hf : findInstance env w S with
    | some inst => simp only [getPipelineHandle, hfind, hf]
    | none =>
      simp only [getPipelineHandle, hfind, hf, createInstance_eq, createPipeline_handle]

/-- A first request on a fresh object with a state cache: one notification,
carrying the shader key 7 and the requested state. -/
theorem cache_notified_on_creation_witness :
    (getPipelineHandle exampleEnv exampleWorld (exampleState 1)).2.m_stateCache =
      some ([] ++ [({ cs := exampleEnv.shaderKey }, exampleState 1)]) :=
  ((cache_notified_on_creation exampleEnv exampleWorld (exampleState 1)).1
    (by decide)).2 [] rfl

/-- C12 as stated fails: a request that finds a compatible instance, on an
object whose state cache is present, makes no notification. -/
theorem cache_not_notified_on_hit_counterexample :
    exampleWarmWorld.m_stateCache = some [] ∧
    findInstance exampleEnv exampleWarmWorld (exampleState 1) = some ⟨exampleState 1, 100⟩ ∧
    (getPipelineHandle exampleEnv exampleWarmWorld (exampleState 1)).1 = 100 ∧
    (getPipelineHandle exampleEnv exampleWarmWorld (exampleState 1)).2.m_stateCache =
      some [] := by
  decide

end DxvkComputePipeline

/-! ## The pairing arrays at the end of the stream -/

namespace DxbcAnalyzer

theorem onlyPair_flip (M : Int → Int → Prop) (X Y : Int) :
    OnlyPair (fun y x => M x y) Y X ↔ OnlyPair M X Y := by
  unfold OnlyPair
  constructor
  · rintro ⟨h1, h2⟩
    refine ⟨h1, fun x y hm hor => ?_⟩
    have := h2 y x hm hor.symm
    exact ⟨this.2, this.1⟩
  · rintro ⟨h1, h2⟩
    refine ⟨h1, fun y x hm hor => ?_⟩
    have := h2 x y hm hor.symm
    exact ⟨this.2, this.1⟩

theorem slotsDescribe_congr (M N : Int → Int → Prop) (xs : List Int)
    (h : ∀ x y, M x y ↔ N x y) (hM : SlotsDescribe M xs) : SlotsDescribe N xs := by
  have : M = N := by
    funext x y
    exact propext (h x y)
  rw [← this]
  exact hM

/-- One pairing step keeps the description of the observed pairs, seen from the
array indexed by the first components. -/
theorem slotsDescribe_step (M : Int → Int → Prop) (xs ys : List Int) (X0 Y0 a b : Int)
    (hx : SlotsDescribe M xs) (hy : SlotsDescribe (fun y x => M x y) ys)
    (ha : arrGet xs X0 = some a) (hb : arrGet ys Y0 = some b) :
    SlotsDescribe (fun x y => M x y ∨ (x = X0 ∧ y = Y0)) (pairingUpdate xs X0 Y0 a b) := by
  have hinX0 : inBounds xs X0 = true := inBounds_of_arrGet ha
  have hX0 : 0 ≤ X0 := ((inBounds_iff _ _).1 hinX0).1
  have hY0 : 0 ≤ Y0 := ((inBounds_iff _ _).1 (inBounds_of_arrGet hb)).1
  obtain ⟨A0, A1, A2⟩ := hx X0 a ha
  obtain ⟨B0, B1, B2f⟩ := hy Y0 b hb
  have B2 : ∀ X : Int, 0 ≤ X → (b = X ↔ OnlyPair M X Y0) :=
    fun X hX => (B2f X hX).trans (onlyPair_flip M X Y0)
  intro X v hget
  have hXnn : 0 ≤ X := by
    have := inBounds_of_arrGet hget
    unfold pairingUpdate at this
    have h2 : inBounds xs X = true := by
      split at this
      · rwa [inBounds_arrPut] at this
      · split at this
        · rw [inBounds_arrPut] at this
          split at this
          · rwa [inBounds_arrPut] at this
          · exact this
        · exact this
    exact ((inBounds_iff _ _).1 h2).1
  unfold pairingUpdate at hget
  show -2 ≤ v ∧ (v = -1 ↔ ∀ y : Int, ¬ (M X y ∨ (X = X0 ∧ y = Y0))) ∧
    (∀ Y : Int, 0 ≤ Y → (v = Y ↔ OnlyPair (fun x y => M x y ∨ (x = X0 ∧ y = Y0)) X Y))
  by_cases h1 : a = -1 ∧ b = -1
  · -- both unassigned: the pair is recorded
    simp only [h1, and_self, if_true] at hget
    rw [arrGet_arrPut] at hget
    have noX : ∀ y, ¬ M X0 y := A1.1 h1.1
    have noY : ∀ x, ¬ M x Y0 := B1.1 h1.2
    by_cases hXe : X = X0
    · simp only [hinX0, hXe, and_self, if_true, Option.some.injEq] at hget
      refine ⟨by omega, ⟨fun h => by omega, fun h => absurd (Or.inr ⟨hXe, rfl⟩) (h Y0)⟩, ?_⟩
      intro Y hY
      constructor
      · intro hvY
        have hYe : Y = Y0 := by omega
        rw [hYe, hXe]
        refine ⟨Or.inr ⟨rfl, rfl⟩, ?_⟩
        intro x y hm hor
        rcases hm with hm | hm
        · rcases hor with hor | hor
          · rw [hor] at hm; exact absurd hm (noX y)
          · rw [hor] at hm; exact absurd hm (noY x)
        · exact hm
      · intro hg
        have := hg.2 X0 Y0 (Or.inr ⟨rfl, rfl⟩) (Or.inl hXe.symm)
        omega
    · simp only [hXe, and_false, if_false] at hget
      obtain ⟨V0, V1, V2⟩ := hx X v hget
      refine ⟨V0, ?_, ?_⟩
      · rw [V1]
        constructor
        · intro h y hm
          rcases hm with hm | hm
          · exact h y hm
          · exact hXe hm.1
        · intro h y hm
          exact h y (Or.inl hm)
      · intro Y hY
        rw [V2 Y hY]
        constructor
        · rintro ⟨g1, g2⟩
          refine ⟨Or.inl g1, ?_⟩
          intro x y hm hor
          rcases hm with hm | hm
          · exact g2 x y hm hor
          · rcases hor with hor | hor
            · exact absurd (hor.symm.trans hm.1) hXe
            · rw [← hor, hm.2] at g1; exact absurd g1 (noY X)
        · rintro ⟨g1, g2⟩
          rcases g1 with g1 | g1
          · exact ⟨g1, fun x y hm hor => g2 x y (Or.inl hm) hor⟩
          · exact absurd g1.1 hXe
  · simp only [h1, if_false] at hget
    by_cases h2 : a ≠ Y0 ∨ b ≠ X0
    · -- disagreement: both sides are poisoned
      simp only [h2, if_true] at hget
      rw [arrGet_arrPut] at hget
      have hinQ : inBounds (if b ≥ 0 then arrPut xs b (-2) else xs) X0 = true := by
        split
        · rw [inBounds_arrPut]; exact hinX0
        · exact hinX0
      by_cases hXe : X = X0
      · simp only [hinQ, hXe, and_self, if_true, Option.some.injEq] at hget
        refine ⟨by omega, ⟨fun h => by omega, fun h => absurd (Or.inr ⟨hXe, rfl⟩) (h Y0)⟩, ?_⟩
        intro Y hY
        constructor
        · intro hvY; omega
        · intro hg
          exfalso
          rw [hXe] at hg
          have hYe : Y0 = Y := (hg.2 X0 Y0 (Or.inr ⟨rfl, rfl⟩) (Or.inl rfl)).2
          rw [← hYe] at hg
          by_cases hocc : ∃ y, M X0 y
          · obtain ⟨y, hm⟩ := hocc
            have hy0 : y = Y0 := (hg.2 X0 y (Or.inl hm) (Or.inl rfl)).2
            rw [hy0] at hm
            have hgood : OnlyPair M X0 Y0 :=
              ⟨hm, fun x y hm2 hor => hg.2 x y (Or.inl hm2) hor⟩
            have ea : a = Y0 := (A2 Y0 hY0).2 hgood
            have eb : b = X0 := (B2 X0 hX0).2 hgood
            rcases h2 with h | h
            · exact h ea
            · exact h eb
          · have ea : a = -1 := A1.2 (fun y hm => hocc ⟨y, hm⟩)
            have hb1 : b ≠ -1 := fun hb1 => h1 ⟨ea, hb1⟩
            have : ¬ ∀ x, ¬ M x Y0 := fun hall => hb1 (B1.2 hall)
            apply this
            intro x hm
            have hx0 : x = X0 := (hg.2 x Y0 (Or.inl hm) (Or.inr rfl)).1
            rw [hx0] at hm
            exact hocc ⟨Y0, hm⟩
      · simp only [hXe, and_false, if_false] at hget
        by_cases hXb : b ≥ 0 ∧ X = b
        · -- the partner of `Y0` is poisoned
          obtain ⟨hb0, hXb⟩ := hXb
          have hinb : inBounds xs b = true := by
            have := inBounds_of_arrGet hget
            simp only [hb0, if_true, inBounds_arrPut] at this
            rw [← hXb]; exact this
          simp only [hb0, if_true] at hget
          rw [arrGet_arrPut] at hget
          simp only [hinb, hXb, and_self, if_true, Option.some.injEq] at hget
          have hgb : OnlyPair M b Y0 := (B2 b hb0).1 rfl
          refine ⟨by omega, ⟨fun h => by omega, fun h => ?_⟩, ?_⟩
          · rw [hXb] at h
            exact absurd (Or.inl hgb.1) (h Y0)
          · intro Y hY
            constructor
            · intro hvY; omega
            · intro hg
              exfalso
              rw [hXb] at hg
              have hYe : Y0 = Y := (hg.2 b Y0 (Or.inl hgb.1) (Or.inl rfl)).2
              have hX0b : X0 = b := (hg.2 X0 Y0 (Or.inr ⟨rfl, rfl⟩) (Or.inr hYe)).1
              exact hXe (hXb.trans hX0b.symm)
        · have hget0 : arrGet xs X = some v := by
            by_cases hb0 : b ≥ 0
            · simp only [hb0, if_true] at hget
              rw [arrGet_arrPut] at hget
              have : ¬ (inBounds xs b = true ∧ X = b) := fun h => hXb ⟨hb0, h.2⟩
              simp only [this, if_false] at hget
              exact hget
            · simp only [hb0, if_false] at hget
              exact hget
          obtain ⟨V0, V1, V2⟩ := hx X v hget0
          refine ⟨V0, ?_, ?_⟩
          · rw [V1]
            constructor
            · intro h y hm
              rcases hm with hm | hm
              · exact h y hm
              · exact hXe hm.1
            · intro h y hm
              exact h y (Or.inl hm)
          · intro Y hY
            rw [V2 Y hY]
            constructor
            · rintro ⟨g1, g2⟩
              refine ⟨Or.inl g1, ?_⟩
              intro x y hm hor
              rcases hm with hm | hm
              · exact g2 x y hm hor
              · rcases hor with hor | hor
                · exact absurd (hor.symm.trans hm.1) hXe
                · exfalso
                  have hYe : Y = Y0 := hor.symm.trans hm.2
                  rw [hYe] at g1 g2
                  have eb : b = X := (B2 X hXnn).2 ⟨g1, g2⟩
                  exact hXb ⟨by omega, eb.symm⟩
            · rintro ⟨g1, g2⟩
              rcases g1 with g1 | g1
              · exact ⟨g1, fun x y hm hor => g2 x y (Or.inl hm) hor⟩
              · exact absurd g1.1 hXe
    · -- agreement: nothing changes, and the pair was observed before
      simp only [h2, if_false] at hget
      have ea : a = Y0 := by
        by_contra h; exact h2 (Or.inl h)
      have hm0 : M X0 Y0 := ((A2 Y0 hY0).1 ea).1
      apply slotsDescribe_congr M _ xs _ hx X v hget
      intro x y
      constructor
      · intro h; exact Or.inl h
      · rintro (h | ⟨rfl, rfl⟩)
        · exact h
        · exact hm0

/-- The two arrays after the pairing step of the specification, as updates of
the arrays before it. -/
theorem specPairing_arrays (r : DxbcAnalysisInfo) (T S a b : Int)
    (ha : arrGet r.textureSamplerIds T = some a)
    (hb : arrGet r.samplerTextureIds S = some b) :
    (specPairing r T S).textureSamplerIds = pairingUpdate r.textureSamplerIds T S a b ∧
    (specPairing r T S).samplerTextureIds = pairingUpdate r.samplerTextureIds S T b a := by
  unfold specPairing pairingUpdate
  simp only [ha, hb]
  by_cases h1 : a = -1 ∧ b = -1
  · have h1s : b = -1 ∧ a = -1 := ⟨h1.2, h1.1⟩
    simp only [h1, h1s, and_self, if_true]
  · have h1s : ¬ (b = -1 ∧ a = -1) := fun h => h1 ⟨h.2, h.1⟩
    simp only [h1, h1s, if_false]
    by_cases h2 : a ≠ S ∨ b ≠ T
    · have h2s : b ≠ T ∨ a ≠ S := h2.symm
      simp only [h2, h2s, if_true, and_self]
    · have h2s : ¬ (b ≠ T ∨ a ≠ S) := fun h => h2 h.symm
      simp only [h2, h2s, if_false, and_self]

/-- The pairing update keeps the length of the array. -/
theorem pairingUpdate_length (xs : List Int) (X Y a b : Int) :
    (pairingUpdate xs X Y a b).length = xs.length := by
  unfold pairingUpdate
  split
  · exact arrPut_length _ _ _
  · split
    · rw [arrPut_length]
      split
      · exact arrPut_length _ _ _
      · rfl
    · rfl

/-- What a defined `processInstruction` does to the pairing arrays, in terms of
the pair the instruction observes. -/
theorem processInstruction_observed (a a1 : DxbcAnalysisInfo) (ins : DxbcShaderInstruction)
    (hinv : PairingInv a.textureSamplerIds a.samplerTextureIds)
    (h : processInstruction a ins = some a1) :
    (observedPair ins = none ∧ a1.textureSamplerIds = a.textureSamplerIds ∧
      a1.samplerTextureIds = a.samplerTextureIds) ∨
    (∃ T S x y : Int, observedPair ins = some (T, S) ∧
      arrGet a.textureSamplerIds T = some x ∧ arrGet a.samplerTextureIds S = some y ∧
      a1.textureSamplerIds = pairingUpdate a.textureSamplerIds T S x y ∧
      a1.samplerTextureIds = pairingUpdate a.samplerTextureIds S T y x) := by
  have htex : ∀ a0 : DxbcAnalysisInfo,
      a0.textureSamplerIds = a.textureSamplerIds →
      a0.samplerTextureIds = a.samplerTextureIds →
      gatherCase a0 ins = some a1 →
      (ins.opClass = DxbcInstClass.TextureSample ∨
        ins.opClass = DxbcInstClass.TextureQueryLod ∨
        ins.opClass = DxbcInstClass.TextureGather) →
      ∃ T S x y : Int, observedPair ins = some (T, S) ∧
        arrGet a.textureSamplerIds T = some x ∧ arrGet a.samplerTextureIds S = some y ∧
        a1.textureSamplerIds = pairingUpdate a.textureSamplerIds T S x y ∧
        a1.samplerTextureIds = pairingUpdate a.samplerTextureIds S T y x := by
    intro a0 e1 e2 hm hcls
    simp only [gatherCase] at hm
    generalize hk : (if ins.op = DxbcOpcode.Gather4Po ∨ ins.op = DxbcOpcode.Gather4PoC
      then 1 else 0 : Nat) = k at hm
    cases hx : ins.src[1 + k]? with
    | none => simp [hx] at hm
    | some tx =>
      cases hy : ins.src[2 + k]? with
      | none => simp [hx, hy] at hm
      | some sm =>
        simp only [hx, hy] at hm
        obtain ⟨hT, hS⟩ := handle_some_inBounds _ _ _ _ hm
        have hinv0 : PairingInv a0.textureSamplerIds a0.samplerTextureIds := by
          rw [e1, e2]; exact hinv
        rw [handle_eq_specPairing a0 tx sm hinv0 hT hS] at hm
        obtain ⟨x, hxv⟩ := arrGet_isSome _ _ hT
        obtain ⟨y, hyv⟩ := arrGet_isSome _ _ hS
        obtain ⟨s1, s2⟩ := specPairing_arrays a0 _ _ x y hxv hyv
        cases hm
        rw [e1] at hxv s1
        rw [e2] at hyv s2
        refine ⟨toInt32 tx.idx0offset, toInt32 sm.idx0offset, x, y, ?_, hxv, hyv, s1, s2⟩
        unfold observedPair
        simp only [hcls, if_true, hk, hx, hy]
  have hnone : ∀ c : DxbcInstClass, ins.opClass = c →
      c ≠ DxbcInstClass.TextureSample → c ≠ DxbcInstClass.TextureQueryLod →
      c ≠ DxbcInstClass.TextureGather → observedPair ins = none := by
    intro c hc n1 n2 n3
    unfold observedPair
    rw [hc]
    simp [n1, n2, n3]
  unfold processInstruction at h
  cases hc : ins.opClass with
  | Atomic =>
    left
    refine ⟨hnone _ hc (by decide) (by decide) (by decide), ?_⟩
    simp only [hc] at h
    split at h
    · exact absurd h (by simp)
    · split at h
      · split at h
        · exact absurd h (by simp)
        · cases h; exact ⟨rfl, rfl⟩
      · cases h; exact ⟨rfl, rfl⟩
  | TextureSample =>
    right; simp only [hc] at h
    exact htex { a with usesDerivatives := true } rfl rfl h (Or.inl hc)
  | TextureQueryLod =>
    right; simp only [hc] at h
    exact htex { a with usesDerivatives := true } rfl rfl h (Or.inr (Or.inl hc))
  | TextureGather =>
    right; simp only [hc] at h
    exact htex a rfl rfl h (Or.inr (Or.inr hc))
  | VectorDeriv =>
    left
    refine ⟨hnone _ hc (by decide) (by decide) (by decide), ?_⟩
    simp only [hc] at h; cases h; exact ⟨rfl, rfl⟩
  | ControlFlow =>
    left
    refine ⟨hnone _ hc (by decide) (by decide) (by decide), ?_⟩
    simp only [hc] at h
    split at h <;> (cases h; exact ⟨rfl, rfl⟩)
  | TypedUavLoad =>
    left
    refine ⟨hnone _ hc (by decide) (by decide) (by decide), ?_⟩
    simp only [hc] at h
    split at h
    · exact absurd h (by simp)
    · split at h
      · exact absurd h (by simp)
      · cases h; exact ⟨rfl, rfl⟩
  | Other tag =>
    left
    refine ⟨hnone _ hc (by simp) (by simp) (by simp), ?_⟩
    simp only [hc] at h; cases h; exact ⟨rfl, rfl⟩

/-- Through a defined run the arrays keep describing the pairs observed so
far, and keep their lengths. -/
theorem run_describes (prog : List DxbcShaderInstruction) :
    ∀ (M : Int → Int → Prop) (a a1 : DxbcAnalysisInfo),
      PairingInv a.textureSamplerIds a.samplerTextureIds →
      SlotsDescribe M a.textureSamplerIds →
      SlotsDescribe (fun y x => M x y) a.samplerTextureIds →
      run a prog = some a1 →
      SlotsDescribe (fun x y => M x y ∨ (x, y) ∈ observedPairs prog) a1.textureSamplerIds ∧
      SlotsDescribe (fun y x => M x y ∨ (x, y) ∈ observedPairs prog) a1.samplerTextureIds ∧
      a1.textureSamplerIds.length = a.textureSamplerIds.length ∧
      a1.samplerTextureIds.length = a.samplerTextureIds.length := by
  induction prog with
  | nil =>
    intro M a a1 _ hx hy h
    simp only [run, Option.some.injEq] at h
    subst h
    refine ⟨?_, ?_, rfl, rfl⟩
    · exact slotsDescribe_congr M _ _ (fun x y => by simp [observedPairs]) hx
    · exact slotsDescribe_congr _ _ _ (fun y x => by simp [observedPairs]) hy
  | cons ins rest ih =>
    intro M a a1 hinv hx hy h
    simp only [run] at h
    cases hp : processInstruction a ins with
    | none => simp [hp] at h
    | some a2 =>
      simp only [hp, Option.some_bind] at h
      have hinv2 := processInstruction_inv a a2 ins hinv hp
      rcases processInstruction_observed a a2 ins hinv hp with
        ⟨hnone, e1, e2⟩ | ⟨T, S, x, y, hsome, hxv, hyv, e1, e2⟩
      · have hx2 : SlotsDescribe M a2.textureSamplerIds := by rw [e1]; exact hx
        have hy2 : SlotsDescribe (fun y x => M x y) a2.samplerTextureIds := by rw [e2]; exact hy
        obtain ⟨r1, r2, r3, r4⟩ := ih M a2 a1 hinv2 hx2 hy2 h
        have hobs : observedPairs (ins :: rest) = observedPairs rest := by
          simp [observedPairs, List.filterMap_cons, hnone]
        rw [hobs]
        exact ⟨r1, r2, by rw [r3, e1], by rw [r4, e2]⟩
      · have hx2 : SlotsDescribe (fun p q => M p q ∨ (p = T ∧ q = S)) a2.textureSamplerIds := by
          rw [e1]
          exact slotsDescribe_step M _ _ T S x y hx hy hxv hyv
        have hy2 : SlotsDescribe (fun q p => M p q ∨ (p = T ∧ q = S))
            a2.samplerTextureIds := by
          rw [e2]
          have := slotsDescribe_step (fun q p => M p q) _ _ S T y x hy hx hyv hxv
          exact slotsDescribe_congr _ _ _ (fun q p => by
            constructor
            · rintro (h | ⟨h1, h2⟩)
              · exact Or.inl h
              · exact Or.inr ⟨h2, h1⟩
            · rintro (h | ⟨h1, h2⟩)
              · exact Or.inl h
              · exact Or.inr ⟨h2, h1⟩) this
        obtain ⟨r1, r2, r3, r4⟩ :=
          ih (fun p q => M p q ∨ (p = T ∧ q = S)) a2 a1 hinv2 hx2 hy2 h
        have hobs : observedPairs (ins :: rest) = (T, S) :: observedPairs rest := by
          simp [observedPairs, List.filterMap_cons, hsome]
        rw [hobs]
        have hmem : ∀ p q : Int,
            ((M p q ∨ (p = T ∧ q = S)) ∨ (p, q) ∈ observedPairs rest) ↔
            (M p q ∨ (p, q) ∈ (T, S) :: observedPairs rest) := by
          intro p q
          simp only [List.mem_cons, Prod.mk.injEq]
          tauto
        refine ⟨slotsDescribe_congr _ _ _ hmem r1,
          slotsDescribe_congr _ _ _ (fun q p => hmem p q) r2, ?_, ?_⟩
        · rw [r3, e1, pairingUpdate_length]
        · rw [r4, e2, pairingUpdate_length]

/-- Two arrays of one length that describe the same pairs are equal. -/
theorem slotsDescribe_unique (M : Int → Int → Prop) (xs ys : List Int)
    (hx : SlotsDescribe M xs) (hy : SlotsDescribe M ys) (hlen : xs.length = ys.length) :
    xs = ys := by
  apply List.ext_getElem hlen
  intro n h1 h2
  have hbx : inBounds xs (n : Int) = true := by rw [inBounds_iff]; omega
  have hby : inBounds ys (n : Int) = true := by rw [inBounds_iff]; omega
  have gx : arrGet xs (n : Int) = some xs[n] := by
    simp [arrGet, hbx, List.getElem?_eq_getElem h1]
  have gy : arrGet ys (n : Int) = some ys[n] := by
    simp [arrGet, hby, List.getElem?_eq_getElem h2]
  obtain ⟨X0, X1, X2⟩ := hx _ _ gx
  obtain ⟨Y0, Y1, Y2⟩ := hy _ _ gy
  by_cases c1 : xs[n] = -1
  · rw [c1]; exact ((Y1.2 (X1.1 c1))).symm
  · by_cases c2 : 0 ≤ xs[n]
    · exact ((Y2 _ c2).2 ((X2 _ c2).1 rfl)).symm
    · have d1 : ys[n] ≠ -1 := fun h => c1 (X1.2 (Y1.1 h))
      have d2 : ¬ 0 ≤ ys[n] := fun h => c2 (by
        have := (X2 _ h).2 ((Y2 _ h).1 rfl)
        omega)
      omega

/-- A stream of texture-class instructions whose pairs lie inside the arrays
runs to the end. -/
theorem run_total (prog : List DxbcShaderInstruction) :
    ∀ a : DxbcAnalysisInfo,
      PairingInv a.textureSamplerIds a.samplerTextureIds →
      (∀ ins ∈ prog, ∃ T S : Int, observedPair ins = some (T, S) ∧
        inBounds a.textureSamplerIds T = true ∧ inBounds a.samplerTextureIds S = true) →
      ∃ a1 : DxbcAnalysisInfo, run a prog = some a1 := by
  induction prog with
  | nil => intro a _ _; exact ⟨a, rfl⟩
  | cons ins rest ih =>
    intro a hinv hall
    obtain ⟨T, S, hp, hT, hS⟩ := hall ins (List.mem_cons_self _ _)
    have e := processInstruction_texture a ins T S hp hinv hT hS
    obtain ⟨a2, ha2⟩ : ∃ a2, processInstruction a ins = some a2 := ⟨_, e⟩
    have hinv2 := processInstruction_inv a a2 ins hinv ha2
    have hlen : a2.textureSamplerIds.length = a.textureSamplerIds.length ∧
        a2.samplerTextureIds.length = a.samplerTextureIds.length := by
      rcases processInstruction_observed a a2 ins hinv ha2 with
        ⟨_, e1, e2⟩ | ⟨_, _, _, _, _, _, _, e1, e2⟩
      · rw [e1, e2]; exact ⟨rfl, rfl⟩
      · rw [e1, e2, pairingUpdate_length, pairingUpdate_length]; exact ⟨rfl, rfl⟩
    have hall2 : ∀ i ∈ rest, ∃ T S : Int, observedPair i = some (T, S) ∧
        inBounds a2.textureSamplerIds T = true ∧ inBounds a2.samplerTextureIds S = true := by
      intro i hi
      obtain ⟨T1, S1, q1, q2, q3⟩ := hall i (List.mem_cons_of_mem _ hi)
      refine ⟨T1, S1, q1, ?_, ?_⟩
      · rw [inBounds_iff] at q2 ⊢; rw [hlen.1]; exact q2
      · rw [inBounds_iff] at q3 ⊢; rw [hlen.2]; exact q3
    obtain ⟨a1, ha1⟩ := ih a2 hinv2 hall2
    exact ⟨a1, by simp [run, ha2, ha1]⟩

/-- The arrays the constructor leaves describe the empty set of pairs. -/
theorem construct_describes (isgn osgn psgn : DxbcIsgnRef) (analysis : DxbcAnalysisInfo) :
    SlotsDescribe (fun _ _ => False) (construct isgn osgn psgn analysis).textureSamplerIds ∧
    SlotsDescribe (fun _ _ => False) (construct isgn osgn psgn analysis).samplerTextureIds := by
  constructor
  · intro X v h
    have hv := arrGet_fill _ _ _ h
    refine ⟨by omega, ⟨fun _ _ hf => hf, fun _ => hv⟩, ?_⟩
    intro Y hY
    constructor
    · intro h; omega
    · intro h; exact absurd h.1 id
  · intro X v h
    have hv := arrGet_fill _ _ _ h
    refine ⟨by omega, ⟨fun _ _ hf => hf, fun _ => hv⟩, ?_⟩
    intro Y hY
    constructor
    · intro h; omega
    · intro h; exact absurd h.1 id

/-- The only-pair condition on a list of pairs, in the words used for a texture
slot and for a sampler slot. -/
theorem onlyPair_list (P : List (Int × Int)) (T S : Int) :
    (OnlyPair (fun x y => False ∨ (x, y) ∈ P) T S ↔
      (∃ p ∈ P, p.1 = T) ∧ ∀ p ∈ P, (p.1 = T ∨ p.2 = S) → p = (T, S)) ∧
    (OnlyPair (fun x y => False ∨ (x, y) ∈ P) T S ↔
      (∃ p ∈ P, p.2 = S) ∧ ∀ p ∈ P, (p.2 = S ∨ p.1 = T) → p = (T, S)) := by
  unfold OnlyPair
  simp only [false_or]
  constructor
  · constructor
    · rintro ⟨h1, h2⟩
      refine ⟨⟨(T, S), h1, rfl⟩, ?_⟩
      rintro ⟨x, y⟩ hp hor
      obtain ⟨e1, e2⟩ := h2 x y hp hor
      rw [e1, e2]
    · rintro ⟨⟨p, hp, hpT⟩, h2⟩
      have hpe := h2 p hp (Or.inl hpT)
      rw [hpe] at hp
      refine ⟨hp, ?_⟩
      intro x y hm hor
      have := h2 (x, y) hm hor
      simp only [Prod.mk.injEq] at this
      exact this
  · constructor
    · rintro ⟨h1, h2⟩
      refine ⟨⟨(T, S), h1, rfl⟩, ?_⟩
      rintro ⟨x, y⟩ hp hor
      obtain ⟨e1, e2⟩ := h2 x y hp hor.symm
      rw [e1, e2]
    · rintro ⟨⟨p, hp, hpS⟩, h2⟩
      have hpe := h2 p hp (Or.inl hpS)
      rw [hpe] at hp
      refine ⟨hp, ?_⟩
      intro x y hm hor
      have := h2 (x, y) hm hor.symm
      simp only [Prod.mk.injEq] at this
      exact this

/-- C20: after construction and a run of the stream `prog`, with
`observedPairs prog` the pairs its texture-class instructions observe, every
entry `textureSamplerIds[T]` is `-1` exactly when `T` occurs in no observed
pair, is `S ≥ 0` exactly when `T` occurs in some pair and every observed pair
containing texture `T` or sampler `S` is `(T, S)`, and is `-2` exactly when `T`
occurs and no such `S` exists; the same holds for `samplerTextureIds` with the
roles exchanged; two streams observing the same set of pairs, in any order and
multiplicity, leave the same two arrays; and a stream of texture-class
instructions whose pairs are inside the arrays does run to its end. -/
theorem pairing_at_end_of_stream (isgn osgn psgn : DxbcIsgnRef)
    (analysis : DxbcAnalysisInfo) (prog : List DxbcShaderInstruction)
    (r : DxbcAnalysisInfo)
    (hrun : run (construct isgn osgn psgn analysis) prog = some r) :
    (∀ T v : Int, arrGet r.textureSamplerIds T = some v →
      (v = -1 ↔ ∀ p ∈ observedPairs prog, p.1 ≠ T) ∧
      (∀ S : Int, 0 ≤ S →
        (v = S ↔ (∃ p ∈ observedPairs prog, p.1 = T) ∧
          ∀ p ∈ observedPairs prog, (p.1 = T ∨ p.2 = S) → p = (T, S))) ∧
      (v = -2 ↔ (∃ p ∈ observedPairs prog, p.1 = T) ∧
        ∀ S : Int, 0 ≤ S →
          ¬ ∀ p ∈ observedPairs prog, (p.1 = T ∨ p.2 = S) → p = (T, S))) ∧
    (∀ S v : Int, arrGet r.samplerTextureIds S = some v →
      (v = -1 ↔ ∀ p ∈ observedPairs prog, p.2 ≠ S) ∧
      (∀ T : Int, 0 ≤ T →
        (v = T ↔ (∃ p ∈ observedPairs prog, p.2 = S) ∧
          ∀ p ∈ observedPairs prog, (p.2 = S ∨ p.1 = T) → p = (T, S))) ∧
      (v = -2 ↔ (∃ p ∈ observedPairs prog, p.2 = S) ∧
        ∀ T : Int, 0 ≤ T →
          ¬ ∀ p ∈ observedPairs prog, (p.2 = S ∨ p.1 = T) → p = (T, S))) ∧
    (∀ (prog2 : List DxbcShaderInstruction) (r2 : DxbcAnalysisInfo),
      run (construct isgn osgn psgn analysis) prog2 = some r2 →
      (∀ p : Int × Int, p ∈ observedPairs prog2 ↔ p ∈ observedPairs prog) →
      r2.textureSamplerIds = r.textureSamplerIds ∧
      r2.samplerTextureIds = r.samplerTextureIds) ∧
    (∀ prog3 : List DxbcShaderInstruction,
      (∀ ins ∈ prog3, ∃ T S : Int, observedPair ins = some (T, S) ∧
        inBounds (construct isgn osgn psgn analysis).textureSamplerIds T = true ∧
        inBounds (construct isgn osgn psgn analysis).samplerTextureIds S = true) →
      ∃ r3 : DxbcAnalysisInfo, run (construct isgn osgn psgn analysis) prog3 = some r3) := by
  have hinv0 := construct_inv isgn osgn psgn analysis
  obtain ⟨d1, d2⟩ := construct_describes isgn osgn psgn analysis
  obtain ⟨hx, hy, l1, l2⟩ := run_describes prog (fun _ _ => False) _ r hinv0 d1 d2 hrun
  refine ⟨?_, ?_, ?_, ?_⟩
  · intro T v hget
    obtain ⟨V0, V1, V2⟩ := hx T v hget
    have c1 : v = -1 ↔ ∀ p ∈ observedPairs prog, p.1 ≠ T := by
      rw [V1]
      simp only [false_or]
      constructor
      · rintro h ⟨x, y⟩ hp hxT
        simp only at hxT
        rw [hxT] at hp
        exact h y hp
      · intro h y hp
        exact h (T, y) hp rfl
    have c2 : ∀ S : Int, 0 ≤ S →
        (v = S ↔ (∃ p ∈ observedPairs prog, p.1 = T) ∧
          ∀ p ∈ observedPairs prog, (p.1 = T ∨ p.2 = S) → p = (T, S)) :=
      fun S hS => (V2 S hS).trans (onlyPair_list _ T S).1
    refine ⟨c1, c2, ?_⟩
    constructor
    · intro hv
      have hocc : ∃ p ∈ observedPairs prog, p.1 = T := by
        by_contra hno
        have : v = -1 := c1.2 (fun p hp hpT => hno ⟨p, hp, hpT⟩)
        omega
      refine ⟨hocc, fun S hS hall => ?_⟩
      have := (c2 S hS).2 ⟨hocc, hall⟩
      omega
    · rintro ⟨⟨p, hp, hpT⟩, hall⟩
      have n1 : v ≠ -1 := fun h => c1.1 h p hp hpT
      have n2 : ¬ 0 ≤ v := fun h => hall v h ((c2 v h).1 rfl).2
      omega
  · intro S v hget
    obtain ⟨V0, V1, V2⟩ := hy S v hget
    have c1 : v = -1 ↔ ∀ p ∈ observedPairs prog, p.2 ≠ S := by
      rw [V1]
      simp only [false_or]
      constructor
      · rintro h ⟨x, y⟩ hp hyS
        simp only at hyS
        rw [hyS] at hp
        exact h x hp
      · intro h x hp
        exact h (x, S) hp rfl
    have c2 : ∀ T : Int, 0 ≤ T →
        (v = T ↔ (∃ p ∈ observedPairs prog, p.2 = S) ∧
          ∀ p ∈ observedPairs prog, (p.2 = S ∨ p.1 = T) → p = (T, S)) :=
      fun T hT => ((V2 T hT).trans (onlyPair_flip _ T S)).trans (onlyPair_list _ T S).2
    refine ⟨c1, c2, ?_⟩
    constructor
    · intro hv
      have hocc : ∃ p ∈ observedPairs prog, p.2 = S := by
        by_contra hno
        have : v = -1 := c1.2 (fun p hp hpS => hno ⟨p, hp, hpS⟩)
        omega
      refine ⟨hocc, fun T hT hall => ?_⟩
      have := (c2 T hT).2 ⟨hocc, hall⟩
      omega
    · rintro ⟨⟨p, hp, hpS⟩, hall⟩
      have n1 : v ≠ -1 := fun h => c1.1 h p hp hpS
      have n2 : ¬ 0 ≤ v := fun h => hall v h ((c2 v h).1 rfl).2
      omega
  · intro prog2 r2 hrun2 hsame
    obtain ⟨hx2, hy2, m1, m2⟩ :=
      run_describes prog2 (fun _ _ => False) _ r2 hinv0 d1 d2 hrun2
    have hx2' := slotsDescribe_congr _ (fun x y => False ∨ (x, y) ∈ observedPairs prog) _
      (fun x y => by rw [hsame]) hx2
    have hy2' := slotsDescribe_congr _ (fun y x => False ∨ (x, y) ∈ observedPairs prog) _
      (fun y x => by rw [hsame]) hy2
    exact ⟨slotsDescribe_unique _ _ _ hx2' hx (by rw [m1, l1]),
      slotsDescribe_unique _ _ _ hy2' hy (by rw [m2, l2])⟩
  · intro prog3 hall
    exact run_total prog3 _ hinv0 hall

/-- The characterisation on the stream gather (0, 0), gather (1, 0): texture 2
occurs in no pair and reads `-1`; texture 0 occurs but sampler 0 is shared and
it reads `-2`. -/
theorem pairing_at_end_of_stream_witness :
    (((-1 : Int) = -1 ↔
      ∀ p ∈ observedPairs [exampleTexIns DxbcInstClass.TextureGather 0 0,
        exampleTexIns DxbcInstClass.TextureGather 1 0], p.1 ≠ 2)) ∧
    (((-2 : Int) = -2 ↔
      (∃ p ∈ observedPairs [exampleTexIns DxbcInstClass.TextureGather 0 0,
        exampleTexIns DxbcInstClass.TextureGather 1 0], p.1 = 0) ∧
      ∀ S : Int, 0 ≤ S →
        ¬ ∀ p ∈ observedPairs [exampleTexIns DxbcInstClass.TextureGather 0 0,
          exampleTexIns DxbcInstClass.TextureGather 1 0],
          (p.1 = 0 ∨ p.2 = S) → p = (0, S))) :=
  ⟨((pairing_at_end_of_stream none none none exampleRecord
      [exampleTexIns DxbcInstClass.TextureGather 0 0,
       exampleTexIns DxbcInstClass.TextureGather 1 0] examplePoisoned (by decide)).1
      2 (-1) (by decide)).1,
   ((pairing_at_end_of_stream none none none exampleRecord
      [exampleTexIns DxbcInstClass.TextureGather 0 0,
       exampleTexIns DxbcInstClass.TextureGather 1 0] examplePoisoned (by decide)).1
      0 (-2) (by decide)).2.2⟩

end DxbcAnalyzer

end dxvk
